import Mathlib

/-!
Verification development for the skills-hub distribution core.

Shallow embedding of the relevant parts of the program:
- src-tauri/src/commands/mod.rs (sync/unsync/delete commands, remote host commands)
- src-tauri/src/core/remote_sync.rs (SFTP upload, remote symlink, batch sync)
- src-tauri/src/core/clawhub_api.rs (archive extraction)

The skill store (skill_store.rs), tool adapter registry (tool_adapters.rs)
and local sync engine (sync_engine.rs) are not part of the provided sources;
where a definition embeds one of those, its doc comment starts with
"Modelled from the spec:" and the model follows the specification text.
External effects (local/remote filesystems, SSH command outcomes, the SFTP
server) are modelled as explicit state or outcome oracles passed in.
-/

namespace SkillsHub

-- ═══════════════════════ Data model (spec section 3) ═══════════════════════

/-- Concrete sync mode returned by the local sync engine
(core/sync_engine.rs SyncMode, as matched in commands/mod.rs). -/
inductive SyncMode
  | auto
  | symlink
  | junction
  | copy
  deriving DecidableEq, Repr

/-- String form of a sync mode, as produced by the match expressions in
commands/mod.rs (sync_skill_to_tool and others). -/
def modeStr : SyncMode → String
  | .auto => "auto"
  | .symlink => "symlink"
  | .junction => "junction"
  | .copy => "copy"

/-- Modelled from the spec: ManagedSkill row of the Skill Store
(skill_store.rs is not in the provided sources; fields follow spec section 3
and the field accesses in commands/mod.rs). -/
structure ManagedSkillRecord where
  id : String
  name : String
  source_type : String
  source_ref : Option String
  central_path : String
  content_hash : Option String
  created_at : Int
  updated_at : Int
  last_sync_at : Option Int
  status : String
  deriving DecidableEq, Repr

/-- SyncTarget row (SkillTargetRecord in commands/mod.rs; the struct literal
there shows the exact fields). -/
structure SkillTargetRecord where
  id : String
  skill_id : String
  tool : String
  target_path : String
  mode : String
  status : String
  last_error : Option String
  synced_at : Option Int
  deriving DecidableEq, Repr

/-- RemoteHost row (RemoteHostRecord, fields shown by the struct literal in
commands/mod.rs add_remote_host). -/
structure RemoteHostRecord where
  id : String
  label : String
  host : String
  port : Int
  username : String
  auth_method : String
  key_path : Option String
  created_at : Int
  updated_at : Int
  last_sync_at : Option Int
  status : String
  deriving DecidableEq, Repr

/-- Modelled from the spec: the Skill Store state, one row list per entity
(spec section 4.4: plain durable CRUD keyed as in section 3). -/
structure Store where
  skills : List ManagedSkillRecord
  skill_targets : List SkillTargetRecord
  remote_hosts : List RemoteHostRecord
  deriving DecidableEq, Repr

/-- Modelled from the spec: get_skill_target keyed by (skill_id, tool)
(spec section 3: at most one SyncTarget per (skill, destination_key)). -/
def get_skill_target (st : Store) (sid tool : String) : Option SkillTargetRecord :=
  st.skill_targets.find? (fun t => t.skill_id == sid && t.tool == tool)

/-- Modelled from the spec: upsert_skill_target replaces the row with the
same (skill_id, tool) key, otherwise inserts. -/
def upsert_skill_target (st : Store) (r : SkillTargetRecord) : Store :=
  { st with skill_targets :=
      r :: st.skill_targets.filter (fun t => !(t.skill_id == r.skill_id && t.tool == r.tool)) }

/-- Modelled from the spec: delete_skill_target removes the row with the
given (skill_id, tool) key. -/
def delete_skill_target (st : Store) (sid tool : String) : Store :=
  { st with skill_targets :=
      st.skill_targets.filter (fun t => !(t.skill_id == sid && t.tool == tool)) }

/-- Modelled from the spec: list_skill_targets returns all rows of a skill. -/
def list_skill_targets (st : Store) (sid : String) : List SkillTargetRecord :=
  st.skill_targets.filter (fun t => t.skill_id == sid)

/-- Modelled from the spec: get_skill_by_id. -/
def get_skill_by_id (st : Store) (sid : String) : Option ManagedSkillRecord :=
  st.skills.find? (fun s => s.id == sid)

/-- Modelled from the spec: delete_skill removes the skill row; the comment
in commands/mod.rs delete_managed_skill states that deleting the skills row
cascades the skill_targets rows, so the cascade is part of the model. -/
def delete_skill (st : Store) (sid : String) : Store :=
  { st with
      skills := st.skills.filter (fun s => !(s.id == sid)),
      skill_targets := st.skill_targets.filter (fun t => !(t.skill_id == sid)) }

/-- Modelled from the spec: get_remote_host_by_id. -/
def get_remote_host_by_id (st : Store) (hid : String) : Option RemoteHostRecord :=
  st.remote_hosts.find? (fun h => h.id == hid)

/-- Modelled from the spec: update_remote_host_sync_status sets the stored
status of the host and, when a timestamp is supplied, also last_sync_at
(callers in commands/mod.rs pass "syncing"/"ok"/"error" with an optional
now_ms; the setter itself is unconditional CRUD per spec section 4.4). -/
def update_remote_host_sync_status (st : Store) (hid status : String)
    (lastSync : Option Int) : Store :=
  { st with remote_hosts := st.remote_hosts.map (fun h =>
      if h.id == hid then
        { h with status := status,
                 last_sync_at := match lastSync with
                   | some t => some t
                   | none => h.last_sync_at }
      else h) }

-- ═══════════════════ Tool adapters (spec section 6) ═══════════════════

/-- Modelled from the spec: a tool adapter entry of the external Tool
Adapter registry (tool_adapters.rs is not in the provided sources; spec
section 6 gives the read-only contract: key, installed?, default skills
directory, detection marker, shared-destination group). -/
structure ToolAdapter where
  key : String
  display_name : String
  relative_skills_dir : String
  relative_detect_dir : String
  deriving DecidableEq, Repr

/-- Modelled from the spec: the Tool Adapter registry together with the
external facts the commands consult: which tools are installed locally,
the shared-destination equivalence group of an adapter, and the resolved
default skills directory of a tool. -/
structure ToolEnv where
  adapters : List ToolAdapter
  installed : String → Bool
  shared_group : ToolAdapter → List ToolAdapter
  defaultPath : String → String

/-- Modelled from the spec: adapter_by_key looks a tool key up in the
registry. -/
def adapter_by_key (env : ToolEnv) (key : String) : Option ToolAdapter :=
  env.adapters.find? (fun a => a.key == key)

-- ═══════════════════ Local filesystem models ═══════════════════

/-- Local destination filesystem for the sync engine: a path either holds
content (abstracted to one fingerprint string per materialized directory)
or does not exist. -/
structure LocalFs where
  content : String → Option String

/-- File kind distinctions made by commands/mod.rs remove_path_any via
symlink_metadata. -/
inductive FileKind
  | symlinkK
  | dirK
  | fileK
  deriving DecidableEq, Repr

/-- Local filesystem as seen by the removal code paths: the kind of entry
at each path (none means the path does not exist) together with outcome
oracles for the two std::fs removal operations used. -/
structure RmFs where
  kind : String → Option FileKind
  removeFileOk : String → Bool
  removeDirAllOk : String → Bool

/-- Erase a path from an RmFs after a successful removal. -/
def erasePath (fs : RmFs) (path : String) : RmFs :=
  { fs with kind := fun p => if p = path then none else fs.kind p }

/-- commands/mod.rs remove_path_any: a missing path is success; a symlink is
removed with remove_file (the link itself, never followed); a directory with
remove_dir_all; anything else with remove_file. -/
def remove_path_any (fs : RmFs) (path : String) : Except String RmFs :=
  match fs.kind path with
  | none => .ok fs
  | some .symlinkK =>
    if fs.removeFileOk path then .ok (erasePath fs path)
    else .error ("remove_file failed: " ++ path)
  | some .dirK =>
    if fs.removeDirAllOk path then .ok (erasePath fs path)
    else .error ("remove_dir_all failed: " ++ path)
  | some .fileK =>
    if fs.removeFileOk path then .ok (erasePath fs path)
    else .error ("remove_file failed: " ++ path)

-- ═══════════════════ Local sync command (commands/mod.rs) ═══════════════════

/-- Substring test, embedding Rust str::contains as used by the
TARGET_EXISTS mapping in commands/mod.rs. -/
def containsSub (hay needle : String) : Bool :=
  decide (needle.data <:+: hay.data)

/-- Outcome of the local sync engine: the concrete mode that actually
succeeded and the materialized target path (sync_engine SyncOutcome as
consumed by commands/mod.rs). -/
structure SyncOutcome where
  mode_used : SyncMode
  target_path : String
  deriving DecidableEq, Repr

/-- Modelled from the spec: sync_engine::sync_dir_for_tool_with_overwrite
(sync_engine.rs is not in the provided sources). Spec section 4.2 overwrite
policy: an existing destination with overwrite = false fails with a
distinguished target-already-exists error carrying the path; with
overwrite = true the existing path is removed first and the destination is
re-materialized from the source. The concrete mode that succeeded is the
platform-dependent outcome of the symlink/junction/copy fallback chain and
is passed in as `mode`. -/
def sync_dir_for_tool_with_overwrite (mode : SyncMode) (fs : LocalFs)
    (source target : String) (overwrite : Bool) :
    Except String (LocalFs × SyncOutcome) :=
  if (fs.content target).isSome && !overwrite then
    .error ("target already exists: " ++ target)
  else
    .ok ({ content := fun p => if p = target then fs.content source else fs.content p },
         ⟨mode, target⟩)

/-- The SkillTargetRecord literal built inside the group loop of
commands/mod.rs sync_skill_to_tool (Uuid::new_v4 modelled by the
injected `uuidFor`, now_ms by `now`). -/
def mkTargetRecord (uuidFor : String → String) (now : Int) (skillId toolKey : String)
    (outcome : SyncOutcome) : SkillTargetRecord :=
  { id := uuidFor toolKey
    skill_id := skillId
    tool := toolKey
    target_path := outcome.target_path
    mode := modeStr outcome.mode_used
    status := "ok"
    last_error := none
    synced_at := some now }

/-- The shared-destination group loop of commands/mod.rs sync_skill_to_tool:
for every installed adapter of the group, upsert a SyncTarget record with
the target path and concrete mode of the one physical write. -/
def writeGroupRecords (env : ToolEnv) (uuidFor : String → String) (now : Int)
    (skillId : String) (outcome : SyncOutcome) (group : List ToolAdapter)
    (st : Store) : Store :=
  group.foldl
    (fun st a =>
      if env.installed a.key then
        upsert_skill_target st (mkTargetRecord uuidFor now skillId a.key outcome)
      else st)
    st

/-- commands/mod.rs sync_skill_to_tool: resolve the adapter, require it to
be installed, run the sync engine against the adapter's default skills
directory joined with the skill name, map a target-already-exists failure to
the TARGET_EXISTS| error, and on success upsert one SyncTarget record per
installed adapter of the shared-destination group. -/
def sync_skill_to_tool (env : ToolEnv) (mode : SyncMode) (fs : LocalFs) (st : Store)
    (uuidFor : String → String) (now : Int)
    (sourcePath skillId tool name : String) (overwrite : Option Bool) :
    Except String (LocalFs × Store × SyncOutcome) :=
  match adapter_by_key env tool with
  | none => .error "unknown tool"
  | some adapter =>
    if env.installed adapter.key then
      let target := env.defaultPath adapter.key ++ "/" ++ name
      match sync_dir_for_tool_with_overwrite mode fs sourcePath target (overwrite.getD false) with
      | .error msg =>
        .error (if containsSub msg "target already exists" then "TARGET_EXISTS|" ++ target
                else msg)
      | .ok (fs', outcome) =>
        .ok (fs', writeGroupRecords env uuidFor now skillId outcome (env.shared_group adapter) st,
             outcome)
    else .error ("TOOL_NOT_INSTALLED|" ++ adapter.key)

-- ═══════════════════ Unsync command (commands/mod.rs) ═══════════════════

/-- Result of unsync_skill_from_tool: the final filesystem and store, the
list of physical removal attempts made (paths passed to remove_path_any),
and the propagated error if any. The store and filesystem reached before an
error are kept, since the Rust command mutates them in place before the
error propagates. -/
structure UnsyncOut where
  fs : RmFs
  store : Store
  removals : List String
  err : Option String

/-- The per-group-member loop of commands/mod.rs unsync_skill_from_tool:
for every group key with a SyncTarget record, remove the physical target
path once (first such member only) and delete the record; a removal error
propagates immediately, leaving the remaining records in place. -/
def unsyncLoop (fs : RmFs) (st : Store) (skillId : String) (keys : List String)
    (removed : Bool) (acc : List String) : UnsyncOut :=
  match keys with
  | [] => ⟨fs, st, acc, none⟩
  | k :: rest =>
    match get_skill_target st skillId k with
    | none => unsyncLoop fs st skillId rest removed acc
    | some t =>
      if removed then
        unsyncLoop fs (delete_skill_target st skillId k) skillId rest true acc
      else
        match remove_path_any fs t.target_path with
        | .error e => ⟨fs, st, acc ++ [t.target_path], some e⟩
        | .ok fs' =>
          unsyncLoop fs' (delete_skill_target st skillId k) skillId rest true
            (acc ++ [t.target_path])

/-- commands/mod.rs unsync_skill_from_tool: resolve the shared-destination
group (falling back to the raw key when the adapter is unknown); if no group
member is installed, do nothing; otherwise walk the group keys removing the
physical target once and deleting each member's record. -/
def unsync_skill_from_tool (env : ToolEnv) (fs : RmFs) (st : Store)
    (skillId tool : String) : UnsyncOut :=
  match adapter_by_key env tool with
  | some adapter =>
    let group := env.shared_group adapter
    if group.any (fun a => env.installed a.key) then
      unsyncLoop fs st skillId (group.map (fun a => a.key)) false []
    else ⟨fs, st, [], none⟩
  | none => unsyncLoop fs st skillId [tool] false []

-- ═══════════════════ Delete command (commands/mod.rs) ═══════════════════

/-- Observable events of delete_managed_skill, in execution order:
an attempted removal of a SyncTarget physical path, the successful removal
of the skill's central directory, and the deletion of the database rows. -/
inductive DelEv
  | removeTarget (p : String)
  | removeCentral (p : String)
  | deleteRows
  deriving DecidableEq, Repr

/-- Result of delete_managed_skill: final filesystem and store, the event
trace, and the error if any. -/
structure DelOut where
  fs : RmFs
  store : Store
  trace : List DelEv
  err : Option String

/-- The target-removal loop of commands/mod.rs delete_managed_skill:
attempt remove_path_any on every SyncTarget path, collecting failures
instead of aborting. Returns the filesystem, the attempt trace and the
collected failure messages. -/
def removeTargetsLoop (fs : RmFs) (ts : List SkillTargetRecord) :
    RmFs × List DelEv × List String :=
  match ts with
  | [] => (fs, [], [])
  | t :: rest =>
    match remove_path_any fs t.target_path with
    | .error e =>
      let r := removeTargetsLoop fs rest
      (r.1, DelEv.removeTarget t.target_path :: r.2.1, (t.target_path ++ ": " ++ e) :: r.2.2)
    | .ok fs1 =>
      let r := removeTargetsLoop fs1 rest
      (r.1, DelEv.removeTarget t.target_path :: r.2.1, r.2.2)

/-- commands/mod.rs delete_managed_skill: first attempt to remove every
SyncTarget's physical path (collecting failures), then, if the skill row
exists, remove its central directory when present (a failure here aborts
before the rows are touched), then delete the database rows; finally report
collected target-removal failures as an error. -/
def delete_managed_skill (fs : RmFs) (st : Store) (skillId : String) : DelOut :=
  let r := removeTargetsLoop fs (list_skill_targets st skillId)
  let fs1 := r.1
  let evs1 := r.2.1
  let fails := r.2.2
  let failErr : Option String :=
    if fails.isEmpty then none
    else some ("cleanup failures: " ++ String.intercalate "; " fails)
  match get_skill_by_id st skillId with
  | some skill =>
    match fs1.kind skill.central_path with
    | some _ =>
      if fs1.removeDirAllOk skill.central_path then
        ⟨erasePath fs1 skill.central_path, delete_skill st skillId,
         evs1 ++ [DelEv.removeCentral skill.central_path, DelEv.deleteRows], failErr⟩
      else ⟨fs1, st, evs1, some ("remove_dir_all failed: " ++ skill.central_path)⟩
    | none =>
      ⟨fs1, delete_skill st skillId, evs1 ++ [DelEv.deleteRows], failErr⟩
  | none => ⟨fs1, st, evs1, failErr⟩

-- ═══════════════════ Remote batch sync (core/remote_sync.rs) ═══════════════════

deriving instance DecidableEq for Except

/-- Boolean success test for an Except outcome. -/
def isOkE {ε α : Type} : Except ε α → Bool
  | .ok _ => true
  | .error _ => false

/-- The remote side as observed through one SSH session: the stdout (or
failure) of each executed shell command, the outcome of an SFTP transfer of
a local directory to a remote path, and whether a local path exists. -/
structure RSess where
  execOut : String → Except String String
  uploadRes : String → String → Except String Unit
  localEx : String → Bool

/-- core/remote_sync.rs sftp_upload_dir, at outcome granularity: the local
source must exist (checked before any remote directory is created),
then the recursive SFTP transfer either succeeds or fails as the remote
side dictates. -/
def sftp_upload_dir_m (sess : RSess) (localPath remotePath : String) :
    Except String Unit :=
  if !sess.localEx localPath then
    .error ("local source directory does not exist: " ++ localPath)
  else sess.uploadRes localPath remotePath

/-- Split a character list at every occurrence of a separator. -/
def splitChar (sep : Char) : List Char → List (List Char)
  | [] => [[]]
  | c :: rest =>
    let r := splitChar sep rest
    if c = sep then [] :: r
    else
      match r with
      | [] => [[c]]
      | h :: t => (c :: h) :: t

/-- Drop leading and trailing whitespace from a character list (the effect
of Rust str::trim). -/
def trimChars (l : List Char) : List Char :=
  ((l.dropWhile Char.isWhitespace).reverse.dropWhile Char.isWhitespace).reverse

/-- Rust str::trim on a string. -/
def trimString (s : String) : String :=
  String.mk (trimChars s.data)

/-- Join character-list components with '/' between them. -/
def joinSlash : List (List Char) → List Char
  | [] => []
  | [l] => l
  | l :: rest => l ++ '/' :: joinSlash rest

/-- Parent of a slash-separated path, following Rust Path::parent as used by
create_remote_symlink: the path with its last component dropped ("/" for a
single-component absolute path, "" for a single relative component, none for
the root). -/
def parentPath (s : String) : Option String :=
  let isAbs := s.data.take 1 = ['/']
  let parts := (splitChar '/' s.data).filter (fun c => c ≠ [])
  match parts with
  | [] => none
  | [_] => if isAbs then some "/" else some ""
  | _ => some (String.mk ((if isAbs then ['/'] else []) ++ joinSlash parts.dropLast))

/-- core/remote_sync.rs create_remote_symlink, at outcome granularity:
run mkdir -p on the target's parent (when there is one), then
ln -sfn source target; each step is one ssh_exec whose outcome the session
dictates. -/
def create_remote_symlink_m (sess : RSess) (source target : String) :
    Except String Unit :=
  let step2 : Except String Unit :=
    match sess.execOut ("ln -sfn '" ++ source ++ "' '" ++ target ++ "'") with
    | .ok _ => .ok ()
    | .error e => .error e
  match parentPath target with
  | some p =>
    match sess.execOut ("mkdir -p '" ++ p ++ "'") with
    | .ok _ => step2
    | .error e => .error e
  | none => step2

/-- The inner tool loop of core/remote_sync.rs sync_all_skills_to_remote:
for each requested tool key that resolves to an adapter, create the remote
symlink and record a formatted error on failure; keys with no matching
adapter contribute nothing. -/
def skillSymErrs (sess : RSess) (adapters : List ToolAdapter) (home : String)
    (tool_keys : List String) (name absCentral : String) : List String :=
  tool_keys.filterMap (fun tk =>
    match adapters.find? (fun a => a.key == tk) with
    | none => none
    | some a =>
      match create_remote_symlink_m sess absCentral
          (home ++ "/" ++ a.relative_skills_dir ++ "/" ++ name) with
      | .ok _ => none
      | .error e => some (name ++ " -> " ++ tk ++ ": " ++ e))

/-- The per-skill loop of core/remote_sync.rs sync_all_skills_to_remote:
skip a skill whose local path is missing; on upload failure record the error
and continue; on upload success create the tool symlinks (failures recorded,
skill still counted as synced). Returns (synced, errors). -/
def syncLoop (sess : RSess) (adapters : List ToolAdapter) (home : String)
    (tool_keys : List String) (skills : List (String × String)) :
    List String × List String :=
  match skills with
  | [] => ([], [])
  | (name, path) :: rest =>
    if !sess.localEx path then syncLoop sess adapters home tool_keys rest
    else
      let absCentral := home ++ "/.skillshub/" ++ name
      match sftp_upload_dir_m sess path absCentral with
      | .error e =>
        let r := syncLoop sess adapters home tool_keys rest
        (r.1, (name ++ ": " ++ e) :: r.2)
      | .ok _ =>
        let symErrs := skillSymErrs sess adapters home tool_keys name absCentral
        let r := syncLoop sess adapters home tool_keys rest
        (name :: r.1, symErrs ++ r.2)

/-- core/remote_sync.rs sync_all_skills_to_remote: resolve $HOME, ensure the
remote central directory, run the per-skill loop, and fail as a whole only
when errors occurred and no skill succeeded; otherwise return the synced
subset (partial failures are only logged). -/
def sync_all_skills_to_remote (sess : RSess) (adapters : List ToolAdapter)
    (skills : List (String × String)) (tool_keys : List String) :
    Except String (List String) :=
  match sess.execOut "echo $HOME" with
  | .error e => .error e
  | .ok rawHome =>
    let home := trimString rawHome
    match sess.execOut ("mkdir -p '" ++ home ++ "/.skillshub'") with
    | .error e => .error e
    | .ok _ =>
      let r := syncLoop sess adapters home tool_keys skills
      if !r.2.isEmpty && r.1.isEmpty then
        .error ("all skills failed to sync:\n" ++ String.intercalate "\n" r.2)
      else .ok r.1

-- ═══════════════════ Remote skill listing (commands/mod.rs) ═══════════════════

/-- The line parsing of core/remote_sync.rs list_remote_skills: split the
captured stdout into lines, trim each, drop empties. -/
def parseSkillLines (out : String) : List String :=
  (((splitChar '\n' out.data).map (fun l => String.mk (trimChars l))).filter (fun l => l ≠ ""))

/-- core/remote_sync.rs list_remote_skills over a session: one ssh_exec of
the ls command; its stdout is parsed into skill names. -/
def list_remote_skills_core (sess : RSess) : Except String (List String) :=
  match sess.execOut "ls -1 ~/.skillshub/ 2>/dev/null || true" with
  | .error e => .error e
  | .ok out => .ok (parseSkillLines out)

/-- commands/mod.rs list_remote_skills: look the host up, open the session
(its creation outcome given by `connect`), list the remote skills, and after
a successful listing write status "ok" to the host row (the store write
errors are swallowed with .ok()). -/
def list_remote_skills_cmd (connect : Except String RSess) (st : Store)
    (hostId : String) : Store × Except String (List String) :=
  match get_remote_host_by_id st hostId with
  | none => (st, .error ("remote host not found: " ++ hostId))
  | some _ =>
    match connect with
    | .error e => (st, .error e)
    | .ok sess =>
      match list_remote_skills_core sess with
      | .error e => (st, .error e)
      | .ok skills =>
        (update_remote_host_sync_status st hostId "ok" none, .ok skills)

-- ═══════════════════ SFTP mkdir -p (core/remote_sync.rs) ═══════════════════

/-- Outcome of one SFTP mkdir call: success, or failure with the
libssh2 SFTP error code. -/
inductive MkdirRes
  | okR
  | errCode (c : Nat)
  deriving DecidableEq, Repr

/-- The SFTP server as observed by sftp_mkdir_p. Paths are component lists
(the root "/" is []). `mkdirRes` is the outcome of the first mkdir attempt
on a path, `retryRes` the outcome of the retry made after creating parents,
and `stat1Ok` / `stat2Ok` whether the stat following the first / the retried
failure succeeds; keeping the attempts separate lets the model express a
concurrent creation race between the calls. -/
structure SftpEnv where
  mkdirRes : List String → MkdirRes
  retryRes : List String → MkdirRes
  stat1Ok : List String → Bool
  stat2Ok : List String → Bool

/-- core/remote_sync.rs sftp_mkdir_p: try mkdir; error codes SFTP(4) and
SFTP(11) mean already-exists and are success; otherwise a succeeding stat
means success; otherwise recursively create the parents (stopping at the
root or an empty parent) and retry, where a retry failure is still success
if a final stat shows the directory exists (already-exists from a race). -/
def sftp_mkdir_p (env : SftpEnv) (path : List String) : Except String Unit :=
  match env.mkdirRes path with
  | .okR => .ok ()
  | .errCode c =>
    if c = 4 ∨ c = 11 then .ok ()
    else if env.stat1Ok path then .ok ()
    else
      if h : path.dropLast ≠ [] then
        match sftp_mkdir_p env path.dropLast with
        | .error e => .error e
        | .ok _ =>
          match env.retryRes path with
          | .okR => .ok ()
          | .errCode _ =>
            if env.stat2Ok path then .ok ()
            else .error ("failed to create remote dir: " ++ String.intercalate "/" path)
      else .ok ()
termination_by path.length
decreasing_by
  simp only [List.dropLast_eq_take]
  have hne : path ≠ [] := by
    intro hnil
    exact h (by simp [hnil])
  have : path.length - 1 < path.length :=
    Nat.sub_lt (List.length_pos.mpr hne) (by omega)
  simpa using Nat.lt_of_le_of_lt (by simpa using List.length_take_le (path.length - 1) path) this

-- ═══════════════════ Remote filesystem semantics (for create_remote_symlink) ═══════════════════

/-- An entry of the remote filesystem: a directory, a regular file, or a
symbolic link with its recorded destination. -/
inductive REntry
  | dir
  | file
  | symlink (dest : List String)
  deriving DecidableEq, Repr

/-- Remote filesystem as a finite association list from paths (component
lists; the root "/" is []) to entries. -/
abbrev RemoteFs := List (List String × REntry)

/-- Lookup of a remote path. -/
def lookupFs (fs : RemoteFs) (p : List String) : Option REntry :=
  (fs.find? (fun kv => kv.1 == p)).map (fun kv => kv.2)

/-- Insert a fresh remote entry. -/
def insertFs (fs : RemoteFs) (p : List String) (e : REntry) : RemoteFs :=
  (p, e) :: fs

/-- Replace the entry at an existing remote path. -/
def updateFs (fs : RemoteFs) (p : List String) (e : REntry) : RemoteFs :=
  fs.map (fun kv => if kv.1 == p then (kv.1, e) else kv)

/-- The non-empty cumulative prefixes of a path, shortest first. -/
def prefixList (p : List String) : List (List String) :=
  (List.range p.length).map (fun i => p.take (i + 1))

/-- One directory level of mkdir -p: create if absent, succeed if already a
directory, fail on a non-directory entry in the way. -/
def mkdirStep (fs : RemoteFs) (q : List String) : Except String RemoteFs :=
  match lookupFs fs q with
  | none => .ok (insertFs fs q .dir)
  | some .dir => .ok fs
  | some _ => .error ("mkdir: cannot create directory: " ++ String.intercalate "/" q)

/-- Modelled from the spec: remote shell semantics of mkdir -p as run by
ssh_exec (the remote host is outside the repository): apply mkdirStep to
every cumulative prefix of the path, shortest first. -/
def mkdirP (fs : RemoteFs) (p : List String) : Except String RemoteFs :=
  (prefixList p).foldlM mkdirStep fs

/-- Modelled from the spec: remote shell semantics of ln -sfn source target
as run by ssh_exec ("a link command that replaces an existing link
atomically"). An absent target gets a fresh symlink; an existing file or
symlink at the target is replaced in place (-f forces, -n keeps a symlink
from being dereferenced); a real directory at the target is not affected by
-n, so the link is created inside it under the source's basename, failing if
a directory already sits there. -/
def lnSfn (fs : RemoteFs) (source target : List String) : Except String RemoteFs :=
  match lookupFs fs target with
  | some .dir =>
    let t2 := target ++ [(source.getLast?).getD ""]
    match lookupFs fs t2 with
    | some .dir => .error ("ln: cannot overwrite directory: " ++ String.intercalate "/" t2)
    | some _ => .ok (updateFs fs t2 (.symlink source))
    | none => .ok (insertFs fs t2 (.symlink source))
  | some _ => .ok (updateFs fs target (.symlink source))
  | none => .ok (insertFs fs target (.symlink source))

/-- core/remote_sync.rs create_remote_symlink over the remote filesystem
semantics: mkdir -p on the target's parent (the path with its last component
dropped), then ln -sfn source target. -/
def create_remote_symlink_fs (fs : RemoteFs) (source target : List String) :
    Except String RemoteFs :=
  match mkdirP fs target.dropLast with
  | .error e => .error e
  | .ok fs1 => lnSfn fs1 source target

-- ═══════════════════ Archive extraction (core/clawhub_api.rs) ═══════════════════

/-- One entry of the downloaded zip archive: its name (the path string
stored in the archive) and whether it is a directory entry. -/
structure ZipEntry where
  name : String
  isDir : Bool
  deriving DecidableEq, Repr

/-- The skip condition of the extraction loop in
core/clawhub_api.rs download_and_extract_inner: directory entries, entries
under __MACOSX, and hidden entries (name starting with '.') are skipped. -/
def zipSkip (e : ZipEntry) : Bool :=
  e.isDir || e.name.startsWith "__MACOSX" || e.name.startsWith "."

/-- The extraction loop of download_and_extract_inner: iterate the archive
entries in order and write every non-skipped file entry under
target_dir/slug/name. Returns the written file paths in write order. -/
def download_and_extract_writes (slug : String) (entries : List ZipEntry)
    (targetDir : String) : List String :=
  let extractDir := targetDir ++ "/" ++ slug
  entries.foldl
    (fun acc e => if zipSkip e then acc else acc ++ [extractDir ++ "/" ++ e.name])
    []

/-- The create_dir_all calls of the extraction loop: for every non-skipped
entry, the parent of its output path is created before the file is
written. -/
def download_and_extract_dirs (slug : String) (entries : List ZipEntry)
    (targetDir : String) : List String :=
  let extractDir := targetDir ++ "/" ++ slug
  entries.foldl
    (fun acc e =>
      if zipSkip e then acc else acc ++ (parentPath (extractDir ++ "/" ++ e.name)).toList)
    []

-- ═══════════════════ Concrete instances for witnesses ═══════════════════

/-- Witness adapter: first member of a shared-destination group. -/
def adapterA : ToolAdapter :=
  ⟨"claude-code", "Claude Code", ".claude/skills", ".claude"⟩

/-- Witness adapter: second member of the same shared-destination group. -/
def adapterB : ToolAdapter :=
  ⟨"opencode", "OpenCode", ".claude/skills", ".config/opencode"⟩

/-- Witness tool environment: two installed adapters sharing one skills
directory. -/
def envW : ToolEnv where
  adapters := [adapterA, adapterB]
  installed := fun _ => true
  shared_group := fun _ => [adapterA, adapterB]
  defaultPath := fun _ => "/home/u/.claude/skills"

/-- Witness uuid source. -/
def c1uuid : String → String := fun k => "id-" ++ k

/-- Witness local filesystem: only the central skill copy exists. -/
def fsW : LocalFs where
  content := fun p => if p = "/central/skill-a" then some "v1" else none

/-- Empty store. -/
def stEmpty : Store := ⟨[], [], []⟩

/-- The C1 witness run of sync_skill_to_tool. -/
def c1run : Except String (LocalFs × Store × SyncOutcome) :=
  sync_skill_to_tool envW .symlink fsW stEmpty c1uuid 0
    "/central/skill-a" "s1" "claude-code" "skill-a" none

/-- The store produced by the C1 witness run. -/
def c1store : Store :=
  match c1run with
  | .ok out => out.2.1
  | .error _ => stEmpty

/-- Witness local filesystem for the overwrite claim: both the central copy
and the destination already exist. -/
def fsW8 : LocalFs where
  content := fun p =>
    if p = "/central/skill-a" then some "v1"
    else if p = "/home/u/.claude/skills/skill-a" then some "old" else none

/-- SyncTarget record of the witness skill for the group member
"claude-code". -/
def recC2A : SkillTargetRecord :=
  ⟨"t1", "s1", "claude-code", "/home/u/.claude/skills/skill-a", "symlink", "ok", none, some 0⟩

/-- SyncTarget record of the witness skill for the group member
"opencode". -/
def recC2B : SkillTargetRecord :=
  ⟨"t2", "s1", "opencode", "/home/u/.claude/skills/skill-a", "symlink", "ok", none, some 0⟩

/-- Store holding both group members' SyncTarget records. -/
def stC2 : Store := ⟨[], [recC2A, recC2B], []⟩

/-- Filesystem where the shared target path is a directory whose removal
fails. -/
def fsC2bad : RmFs where
  kind := fun p => if p = "/home/u/.claude/skills/skill-a" then some .dirK else none
  removeFileOk := fun _ => false
  removeDirAllOk := fun _ => false

/-- Filesystem where the shared target path is already absent (removal is a
no-op success). -/
def fsC2ok : RmFs where
  kind := fun _ => none
  removeFileOk := fun _ => true
  removeDirAllOk := fun _ => true

/-- Witness managed skill row for the deletion-order claim. -/
def skillC4 : ManagedSkillRecord :=
  ⟨"s1", "skill-a", "local", some "/src/skill-a", "/central/skill-a", some "h1",
   0, 0, none, "ok"⟩

/-- Store holding the witness skill and both its SyncTarget records. -/
def stC4 : Store := ⟨[skillC4], [recC2A, recC2B], []⟩

/-- Filesystem for the deletion witness: the shared target path is a
symlink and the central directory exists; every removal succeeds. -/
def fsC4 : RmFs where
  kind := fun p =>
    if p = "/home/u/.claude/skills/skill-a" then some .symlinkK
    else if p = "/central/skill-a" then some .dirK else none
  removeFileOk := fun _ => true
  removeDirAllOk := fun _ => true

/-- Witness remote host stored with status "idle". -/
def hostC5 : RemoteHostRecord :=
  ⟨"h1", "vm", "10.0.0.5", 22, "u", "key", none, 0, 0, none, "idle"⟩

/-- Store holding the witness remote host. -/
def stC5 : Store := ⟨[], [], [hostC5]⟩

/-- Session whose every command succeeds; the ls command reports two
skills. -/
def sessC5 : RSess where
  execOut := fun _ => .ok "skill-a\nskill-b\n"
  uploadRes := fun _ _ => .ok ()
  localEx := fun _ => true

/-- SFTP environment whose mkdir of the staging directory fails with SFTP
code 4 (already exists). -/
def sftpEnvW : SftpEnv where
  mkdirRes := fun p => if p = ["home", "u", ".skillshub"] then .errCode 4 else .okR
  retryRes := fun _ => .okR
  stat1Ok := fun _ => false
  stat2Ok := fun _ => false

/-- The collected per-skill error entries of one skill in the batch loop:
none if skipped for a missing local path, the upload error if upload
failed, otherwise the symlink errors. -/
def perSkillErrs (sess : RSess) (adapters : List ToolAdapter) (home : String)
    (tool_keys : List String) (np : String × String) : List String :=
  if !sess.localEx np.2 then []
  else
    match sftp_upload_dir_m sess np.2 (home ++ "/.skillshub/" ++ np.1) with
    | .error e => [np.1 ++ ": " ++ e]
    | .ok _ => skillSymErrs sess adapters home tool_keys np.1 (home ++ "/.skillshub/" ++ np.1)

/-- Session for the batch witness: every command and upload succeeds,
and the local directory of skill 2 is missing. -/
def sessC3 : RSess where
  execOut := fun _ => .ok "/home/u\n"
  uploadRes := fun _ _ => .ok ()
  localEx := fun p => !(p == "/central/skill-2")

/-- The three-skill batch of the spec's example, skill 2's local source
directory missing. -/
def skillsC3 : List (String × String) :=
  [("s1", "/central/skill-1"), ("s2", "/central/skill-2"), ("s3", "/central/skill-3")]

/-- Session for the symlink-failure witness: uploads succeed but every
ln -sfn command fails. -/
def sessC10 : RSess where
  execOut := fun c => if containsSub c "ln -sfn" then .error "ln failed" else .ok "/home/u\n"
  uploadRes := fun _ _ => .ok ()
  localEx := fun _ => true

/-- Staged source path of the remote-symlink witness. -/
def c6src : List String := ["home", "u", ".skillshub", "s1"]

/-- Destination path of the remote-symlink witness. -/
def c6tgt : List String := ["home", "u", ".claude", "skills", "s1"]

/-- First remote-symlink run of the witness, from an empty remote
filesystem. -/
def c6run : Except String RemoteFs := create_remote_symlink_fs [] c6src c6tgt

/-- The remote filesystem after the first witness run. -/
def c6fs1 : RemoteFs :=
  match c6run with
  | .ok f => f
  | .error _ => []

-- ═══════════════════════════════ Theorems ═══════════════════════════════

-- ── Generic list helpers ──

theorem find?_filter_of_imp {α : Type} (p q : α → Bool) :
    ∀ (l : List α), (∀ t, p t = true → q t = true) → (l.filter q).find? p = l.find? p := by
  intro l h
  induction l with
  | nil => simp
  | cons a l ih =>
    by_cases hq : q a = true
    · by_cases hp : p a = true
      · simp [List.filter_cons, hq, List.find?_cons_of_pos, hp]
      · have hp' : p a = false := by simpa using hp
        simp [List.filter_cons, hq, List.find?_cons_of_neg, hp', ih]
    · have hq' : q a = false := by simpa using hq
      have hp' : p a = false := by
        cases hpa : p a
        · rfl
        · exact absurd (h a hpa) (by simp [hq'])
      simp [List.filter_cons, hq', List.find?_cons_of_neg, hp', ih]

theorem find?_filter_none {α : Type} (p q : α → Bool) :
    ∀ (l : List α), (∀ t, p t = true → q t = false) → (l.filter q).find? p = none := by
  intro l h
  induction l with
  | nil => simp
  | cons a l ih =>
    by_cases hq : q a = true
    · have hp' : p a = false := by
        cases hpa : p a
        · rfl
        · exact absurd (h a hpa) (by simp [hq])
      simp [List.filter_cons, hq, List.find?_cons_of_neg, hp', ih]
    · have hq' : q a = false := by simpa using hq
      simp [List.filter_cons, hq', ih]

theorem find?_none_of_find?_none {α : Type} (p q : α → Bool) (l : List α)
    (h : l.find? p = none) : (l.filter q).find? p = none := by
  rw [List.find?_eq_none] at h ⊢
  intro a ha
  exact h a (List.mem_filter.mp ha).1

-- ── Store CRUD lemmas ──

theorem get_skill_target_upsert_self (st : Store) (r : SkillTargetRecord) :
    get_skill_target (upsert_skill_target st r) r.skill_id r.tool = some r := by
  simp only [get_skill_target, upsert_skill_target]
  rw [List.find?_cons_of_pos _ (by simp)]

theorem get_skill_target_upsert_ne (st : Store) (r : SkillTargetRecord) (sid k : String)
    (h : ¬(sid = r.skill_id ∧ k = r.tool)) :
    get_skill_target (upsert_skill_target st r) sid k = get_skill_target st sid k := by
  simp only [get_skill_target, upsert_skill_target]
  rw [List.find?_cons_of_neg]
  · apply find?_filter_of_imp
    intro t ht
    simp only [Bool.and_eq_true, beq_iff_eq] at ht
    simp only [Bool.not_eq_true', Bool.and_eq_false_iff]
    rcases ht with ⟨h1, h2⟩
    by_contra hc
    push_neg at hc
    simp only [Bool.not_eq_false, beq_iff_eq] at hc
    exact h ⟨h1.symm.trans hc.1, h2.symm.trans hc.2⟩
  · simp only [Bool.and_eq_true, beq_iff_eq, not_and]
    intro h1 h2
    exact h ⟨h1.symm, h2.symm⟩

theorem get_skill_target_delete_self (st : Store) (sid k : String) :
    get_skill_target (delete_skill_target st sid k) sid k = none := by
  simp only [get_skill_target, delete_skill_target]
  apply find?_filter_none
  intro t ht
  simpa using ht

theorem get_skill_target_delete_none (st : Store) (sid k sid' k' : String)
    (h : get_skill_target st sid k = none) :
    get_skill_target (delete_skill_target st sid' k') sid k = none := by
  simp only [get_skill_target, delete_skill_target] at h ⊢
  exact find?_none_of_find?_none _ _ _ h

-- ── Substring helper for TARGET_EXISTS mapping ──

theorem target_exists_contains (t : String) :
    containsSub ("target already exists: " ++ t) "target already exists" = true := by
  apply decide_eq_true
  have h2 : ("target already exists: " : String).data
      = ("target already exists" : String).data ++ (": " : String).data := by rfl
  have hpre : ("target already exists" : String).data <+:
      ("target already exists: " ++ t).data := by
    rw [String.data_append, h2, List.append_assoc]
    exact List.prefix_append _ _
  exact hpre.isInfix

-- ── Shared-destination group record writing (claim C1) ──

theorem writeGroupRecords_preserve (env : ToolEnv) (uuidFor : String → String) (now : Int)
    (skillId : String) (outcome : SyncOutcome) :
    ∀ (l : List ToolAdapter) (st : Store) (k : String),
      (∃ r, get_skill_target st skillId k = some r ∧
        r.target_path = outcome.target_path ∧ r.mode = modeStr outcome.mode_used) →
      ∃ r, get_skill_target (writeGroupRecords env uuidFor now skillId outcome l st) skillId k
          = some r ∧ r.target_path = outcome.target_path ∧ r.mode = modeStr outcome.mode_used := by
  intro l
  induction l with
  | nil => intro st k h; simpa [writeGroupRecords] using h
  | cons b l ih =>
    intro st k h
    simp only [writeGroupRecords, List.foldl_cons] at ih ⊢
    by_cases hb : env.installed b.key = true
    · simp only [hb, if_true]
      by_cases hk : k = b.key
      · subst hk
        apply ih
        exact ⟨mkTargetRecord uuidFor now skillId b.key outcome,
          get_skill_target_upsert_self st _, rfl, rfl⟩
      · apply ih
        rcases h with ⟨r, hr, h1, h2⟩
        refine ⟨r, ?_, h1, h2⟩
        rw [get_skill_target_upsert_ne]
        · exact hr
        · simp only [mkTargetRecord, not_and]
          intro _ h2'
          exact hk h2'
    · simp only [Bool.not_eq_true] at hb
      simp only [hb, Bool.false_eq_true, if_false]
      exact ih st k h

theorem writeGroupRecords_spec (env : ToolEnv) (uuidFor : String → String) (now : Int)
    (skillId : String) (outcome : SyncOutcome) :
    ∀ (l : List ToolAdapter) (st : Store) (a : ToolAdapter), a ∈ l →
      env.installed a.key = true →
      ∃ r, get_skill_target (writeGroupRecords env uuidFor now skillId outcome l st)
          skillId a.key = some r ∧
        r.target_path = outcome.target_path ∧ r.mode = modeStr outcome.mode_used := by
  intro l
  induction l with
  | nil => intro st a ha; exact absurd ha (List.not_mem_nil a)
  | cons b l ih =>
    intro st a ha hinst
    simp only [writeGroupRecords, List.foldl_cons] at ih ⊢
    rcases List.mem_cons.mp ha with rfl | ha'
    · simp only [hinst, if_true]
      have h0 : ∃ r, get_skill_target
          (upsert_skill_target st (mkTargetRecord uuidFor now skillId a.key outcome))
          skillId a.key = some r ∧
          r.target_path = outcome.target_path ∧ r.mode = modeStr outcome.mode_used :=
        ⟨mkTargetRecord uuidFor now skillId a.key outcome,
          get_skill_target_upsert_self st _, rfl, rfl⟩
      have := writeGroupRecords_preserve env uuidFor now skillId outcome l
        (upsert_skill_target st (mkTargetRecord uuidFor now skillId a.key outcome))
        a.key h0
      simpa [writeGroupRecords] using this
    · exact ih _ a ha' hinst

/-- Claim C1: for every skill and every tool adapter belonging to a
shared-destination equivalence group, a single successful run of
sync_skill_to_tool writes a SyncTarget record for every currently-installed
adapter in the group, each record carrying the target path and the concrete
mode of the one physical write the sync engine performed. -/
theorem sync_group_records_all_installed
    (env : ToolEnv) (mode : SyncMode) (fs : LocalFs) (st : Store)
    (uuidFor : String → String) (now : Int)
    (sourcePath skillId tool name : String) (ow : Option Bool)
    (adapter : ToolAdapter) (hA : adapter_by_key env tool = some adapter)
    (fs' : LocalFs) (st' : Store) (outcome : SyncOutcome)
    (hRun : sync_skill_to_tool env mode fs st uuidFor now sourcePath skillId tool name ow
      = .ok (fs', st', outcome)) :
    ∀ a ∈ env.shared_group adapter, env.installed a.key = true →
      ∃ r, get_skill_target st' skillId a.key = some r ∧
        r.target_path = outcome.target_path ∧ r.mode = modeStr outcome.mode_used := by
  intro a ha hinst
  simp only [sync_skill_to_tool, hA] at hRun
  cases hI : env.installed adapter.key with
  | false => simp [hI] at hRun
  | true =>
    simp only [hI, if_true] at hRun
    cases hS : sync_dir_for_tool_with_overwrite mode fs sourcePath
        (env.defaultPath adapter.key ++ "/" ++ name) (ow.getD false) with
    | error msg => simp [hS] at hRun
    | ok pair =>
      rcases pair with ⟨fs2, outc⟩
      rw [hS] at hRun
      simp only [Except.ok.injEq, Prod.mk.injEq] at hRun
      rcases hRun with ⟨-, hst, hout⟩
      subst hst hout
      exact writeGroupRecords_spec env uuidFor now skillId outc
        (env.shared_group adapter) st a ha hinst

/-- Claim C1 witness: a concrete sync to adapter "claude-code" leaves a
record for the other installed group member "opencode" with the written
path and mode. -/
theorem sync_group_records_all_installed_witness :
    ∃ r, get_skill_target c1store "s1" "opencode" = some r ∧
      r.target_path = "/home/u/.claude/skills/skill-a" ∧ r.mode = "symlink" := by
  have h := sync_group_records_all_installed envW .symlink fsW stEmpty c1uuid 0
    "/central/skill-a" "s1" "claude-code" "skill-a" none adapterA (by decide)
    _ _ _ rfl adapterB (by decide) (by decide)
  exact h

/-- Claim C8: a sync onto an already-existing destination fails, when the
overwrite flag is false, with the distinguished TARGET_EXISTS| error
carrying the destination path, and the same sync with overwrite true
succeeds and replaces the destination's content with the source's. -/
theorem sync_overwrite_policy
    (env : ToolEnv) (mode : SyncMode) (fs : LocalFs) (st : Store)
    (uuidFor : String → String) (now : Int)
    (sourcePath skillId tool name : String)
    (adapter : ToolAdapter) (hA : adapter_by_key env tool = some adapter)
    (hI : env.installed adapter.key = true)
    (hEx : (fs.content (env.defaultPath adapter.key ++ "/" ++ name)).isSome = true) :
    sync_skill_to_tool env mode fs st uuidFor now sourcePath skillId tool name (some false)
      = .error ("TARGET_EXISTS|" ++ (env.defaultPath adapter.key ++ "/" ++ name))
    ∧ ∃ fs' st' outcome,
        sync_skill_to_tool env mode fs st uuidFor now sourcePath skillId tool name (some true)
          = .ok (fs', st', outcome)
        ∧ fs'.content (env.defaultPath adapter.key ++ "/" ++ name) = fs.content sourcePath
        ∧ outcome.target_path = env.defaultPath adapter.key ++ "/" ++ name := by
  constructor
  · simp only [sync_skill_to_tool, hA, hI, if_true]
    have hS : sync_dir_for_tool_with_overwrite mode fs sourcePath
        (env.defaultPath adapter.key ++ "/" ++ name) ((some false).getD false)
        = .error ("target already exists: " ++ (env.defaultPath adapter.key ++ "/" ++ name)) := by
      simp [sync_dir_for_tool_with_overwrite, hEx]
    rw [hS]
    simp [target_exists_contains]
  · simp only [sync_skill_to_tool, hA, hI, if_true]
    have hS : sync_dir_for_tool_with_overwrite mode fs sourcePath
        (env.defaultPath adapter.key ++ "/" ++ name) ((some true).getD false)
        = .ok ({ content := fun p =>
            if p = env.defaultPath adapter.key ++ "/" ++ name then fs.content sourcePath
            else fs.content p },
            ⟨mode, env.defaultPath adapter.key ++ "/" ++ name⟩) := by
      simp [sync_dir_for_tool_with_overwrite]
    rw [hS]
    refine ⟨_, _, _, rfl, ?_, rfl⟩
    simp

/-- Claim C8 witness: with the destination "/home/u/.claude/skills/skill-a"
already present, overwrite false yields the TARGET_EXISTS error and
overwrite true succeeds and copies the source content. -/
theorem sync_overwrite_policy_witness :
    sync_skill_to_tool envW .symlink fsW8 stEmpty c1uuid 0
      "/central/skill-a" "s1" "claude-code" "skill-a" (some false)
      = .error "TARGET_EXISTS|/home/u/.claude/skills/skill-a"
    ∧ ∃ fs' st' outcome,
        sync_skill_to_tool envW .symlink fsW8 stEmpty c1uuid 0
          "/central/skill-a" "s1" "claude-code" "skill-a" (some true)
          = .ok (fs', st', outcome)
        ∧ fs'.content "/home/u/.claude/skills/skill-a" = fsW8.content "/central/skill-a" := by
  have h := sync_overwrite_policy envW .symlink fsW8 stEmpty c1uuid 0
    "/central/skill-a" "s1" "claude-code" "skill-a" adapterA (by decide) (by decide) (by decide)
  refine ⟨h.1, ?_⟩
  rcases h.2 with ⟨fs', st', outcome, hok, hcontent, -⟩
  exact ⟨fs', st', outcome, hok, hcontent⟩

-- ── Unsync lemmas (claim C2) ──

theorem unsyncLoop_nil (fs : RmFs) (st : Store) (skillId : String) (removed : Bool)
    (acc : List String) :
    unsyncLoop fs st skillId [] removed acc = ⟨fs, st, acc, none⟩ := rfl

theorem unsyncLoop_cons_none (fs : RmFs) (st : Store) (skillId k : String)
    (rest : List String) (removed : Bool) (acc : List String)
    (h : get_skill_target st skillId k = none) :
    unsyncLoop fs st skillId (k :: rest) removed acc
      = unsyncLoop fs st skillId rest removed acc := by
  rw [unsyncLoop, h]

theorem unsyncLoop_cons_removed (fs : RmFs) (st : Store) (skillId k : String)
    (rest : List String) (acc : List String) (t : SkillTargetRecord)
    (h : get_skill_target st skillId k = some t) :
    unsyncLoop fs st skillId (k :: rest) true acc
      = unsyncLoop fs (delete_skill_target st skillId k) skillId rest true acc := by
  rw [unsyncLoop, h]
  exact rfl

theorem unsyncLoop_cons_err (fs : RmFs) (st : Store) (skillId k : String)
    (rest : List String) (acc : List String) (t : SkillTargetRecord) (e : String)
    (h : get_skill_target st skillId k = some t)
    (hr : remove_path_any fs t.target_path = .error e) :
    unsyncLoop fs st skillId (k :: rest) false acc
      = ⟨fs, st, acc ++ [t.target_path], some e⟩ := by
  rw [unsyncLoop, h]
  simp only [Bool.false_eq_true, if_false, hr]

theorem unsyncLoop_cons_ok (fs fs' : RmFs) (st : Store) (skillId k : String)
    (rest : List String) (acc : List String) (t : SkillTargetRecord)
    (h : get_skill_target st skillId k = some t)
    (hr : remove_path_any fs t.target_path = .ok fs') :
    unsyncLoop fs st skillId (k :: rest) false acc
      = unsyncLoop fs' (delete_skill_target st skillId k) skillId rest true
          (acc ++ [t.target_path]) := by
  rw [unsyncLoop, h]
  simp only [Bool.false_eq_true, if_false, hr]

theorem unsyncLoop_removals_le (skillId : String) :
    ∀ (keys : List String) (fs : RmFs) (st : Store) (removed : Bool) (acc : List String),
      (unsyncLoop fs st skillId keys removed acc).removals.length
        ≤ acc.length + (if removed then 0 else 1) := by
  intro keys
  induction keys with
  | nil =>
    intro fs st removed acc
    rw [unsyncLoop_nil]
    cases removed <;> simp
  | cons k rest ih =>
    intro fs st removed acc
    cases hg : get_skill_target st skillId k with
    | none => rw [unsyncLoop_cons_none fs st skillId k rest removed acc hg]; exact ih fs st removed acc
    | some t =>
      cases removed with
      | true =>
        rw [unsyncLoop_cons_removed fs st skillId k rest acc t hg]
        exact ih fs (delete_skill_target st skillId k) true acc
      | false =>
        cases hr : remove_path_any fs t.target_path with
        | error e =>
          rw [unsyncLoop_cons_err fs st skillId k rest acc t e hg hr]
          simp
        | ok fs' =>
          rw [unsyncLoop_cons_ok fs fs' st skillId k rest acc t hg hr]
          have := ih fs' (delete_skill_target st skillId k) true (acc ++ [t.target_path])
          simp at this ⊢
          omega

theorem unsyncLoop_preserve_none (skillId : String) :
    ∀ (keys : List String) (fs : RmFs) (st : Store) (removed : Bool) (acc : List String)
      (k : String), get_skill_target st skillId k = none →
      get_skill_target (unsyncLoop fs st skillId keys removed acc).store skillId k = none := by
  intro keys
  induction keys with
  | nil => intro fs st removed acc k h; rw [unsyncLoop_nil]; exact h
  | cons k0 rest ih =>
    intro fs st removed acc k h
    cases hg : get_skill_target st skillId k0 with
    | none =>
      rw [unsyncLoop_cons_none fs st skillId k0 rest removed acc hg]
      exact ih fs st removed acc k h
    | some t =>
      cases removed with
      | true =>
        rw [unsyncLoop_cons_removed fs st skillId k0 rest acc t hg]
        exact ih fs (delete_skill_target st skillId k0) true acc k
          (get_skill_target_delete_none st skillId k skillId k0 h)
      | false =>
        cases hr : remove_path_any fs t.target_path with
        | error e =>
          rw [unsyncLoop_cons_err fs st skillId k0 rest acc t e hg hr]
          exact h
        | ok fs' =>
          rw [unsyncLoop_cons_ok fs fs' st skillId k0 rest acc t hg hr]
          exact ih fs' (delete_skill_target st skillId k0) true (acc ++ [t.target_path]) k
            (get_skill_target_delete_none st skillId k skillId k0 h)

theorem unsyncLoop_err_none_deleted (skillId : String) :
    ∀ (keys : List String) (fs : RmFs) (st : Store) (removed : Bool) (acc : List String),
      (unsyncLoop fs st skillId keys removed acc).err = none →
      ∀ k ∈ keys,
        get_skill_target (unsyncLoop fs st skillId keys removed acc).store skillId k = none := by
  intro keys
  induction keys with
  | nil => intro fs st removed acc _ k hk; exact absurd hk (List.not_mem_nil k)
  | cons k0 rest ih =>
    intro fs st removed acc herr k hk
    cases hg : get_skill_target st skillId k0 with
    | none =>
      rw [unsyncLoop_cons_none fs st skillId k0 rest removed acc hg] at herr ⊢
      rcases List.mem_cons.mp hk with rfl | hk'
      · exact unsyncLoop_preserve_none skillId rest fs st removed acc k hg
      · exact ih fs st removed acc herr k hk'
    | some t =>
      cases removed with
      | true =>
        rw [unsyncLoop_cons_removed fs st skillId k0 rest acc t hg] at herr ⊢
        rcases List.mem_cons.mp hk with rfl | hk'
        · exact unsyncLoop_preserve_none skillId rest fs _ true acc k
            (get_skill_target_delete_self st skillId k)
        · exact ih fs (delete_skill_target st skillId k0) true acc herr k hk'
      | false =>
        cases hr : remove_path_any fs t.target_path with
        | error e =>
          rw [unsyncLoop_cons_err fs st skillId k0 rest acc t e hg hr] at herr
          simp at herr
        | ok fs' =>
          rw [unsyncLoop_cons_ok fs fs' st skillId k0 rest acc t hg hr] at herr ⊢
          rcases List.mem_cons.mp hk with rfl | hk'
          · exact unsyncLoop_preserve_none skillId rest fs' _ true (acc ++ [t.target_path]) k
              (get_skill_target_delete_self st skillId k)
          · exact ih fs' (delete_skill_target st skillId k0) true (acc ++ [t.target_path])
              herr k hk'

/-- Claim C2 counterexample: with the shared target path a directory whose
removal fails, unsync_skill_from_tool aborts with the error and both group
members' SyncTarget records remain, contradicting the claim that every
group member's record is deleted even when removing the physical path
fails. -/
theorem unsync_failed_removal_keeps_records :
    (unsync_skill_from_tool envW fsC2bad stC2 "s1" "claude-code").err.isSome = true
    ∧ (get_skill_target (unsync_skill_from_tool envW fsC2bad stC2 "s1" "claude-code").store
        "s1" "claude-code").isSome = true
    ∧ (get_skill_target (unsync_skill_from_tool envW fsC2bad stC2 "s1" "claude-code").store
        "s1" "opencode").isSome = true := by
  decide

/-- Claim C2 (amended): unsync invokes physical removal at most once for
the shared-destination group; when no removal attempt fails — in particular
when the path was already deleted beforehand, which remove_path_any treats
as success — the run reports no error and afterwards no SyncTarget record
remains for any (skill, group-member) pair. When a removal fails, the
command instead aborts with the error and the remaining records stay. -/
theorem unsync_amended (env : ToolEnv) (fs : RmFs) (st : Store) (skillId tool : String) :
    (unsync_skill_from_tool env fs st skillId tool).removals.length ≤ 1
    ∧ ∀ (adapter : ToolAdapter), adapter_by_key env tool = some adapter →
      ((env.shared_group adapter).any (fun a => env.installed a.key)) = true →
      (unsync_skill_from_tool env fs st skillId tool).err = none →
      ∀ a ∈ env.shared_group adapter,
        get_skill_target (unsync_skill_from_tool env fs st skillId tool).store skillId a.key
          = none := by
  constructor
  · cases hA : adapter_by_key env tool with
    | none =>
      rw [unsync_skill_from_tool, hA]
      simpa using unsyncLoop_removals_le skillId [tool] fs st false []
    | some adapter =>
      rw [unsync_skill_from_tool, hA]
      by_cases hany : ((env.shared_group adapter).any (fun a => env.installed a.key)) = true
      · simp only [hany, if_true]
        simpa using unsyncLoop_removals_le skillId
          ((env.shared_group adapter).map (fun a => a.key)) fs st false []
      · simp only [Bool.not_eq_true] at hany
        simp [hany]
  · intro adapter hA hany herr a ha
    rw [unsync_skill_from_tool, hA] at herr ⊢
    simp only [hany, if_true] at herr ⊢
    exact unsyncLoop_err_none_deleted skillId
      ((env.shared_group adapter).map (fun a => a.key)) fs st false [] herr a.key
      (List.mem_map_of_mem _ ha)

/-- Claim C2 witness: the amended statement at a concrete instance where
the shared path was already deleted beforehand — at most one removal
attempt, no error, and both group members' records are gone. -/
theorem unsync_amended_witness :
    (unsync_skill_from_tool envW fsC2ok stC2 "s1" "claude-code").removals.length ≤ 1
    ∧ get_skill_target (unsync_skill_from_tool envW fsC2ok stC2 "s1" "claude-code").store
        "s1" "opencode" = none := by
  have h := unsync_amended envW fsC2ok stC2 "s1" "claude-code"
  exact ⟨h.1, h.2 adapterA (by decide) (by decide) (by decide) adapterB (by decide)⟩
-- ── Deletion-order lemmas (claim C4) ──

theorem removeTargetsLoop_trace :
    ∀ (ts : List SkillTargetRecord) (fs : RmFs),
      (removeTargetsLoop fs ts).2.1 = ts.map (fun t => DelEv.removeTarget t.target_path) := by
  intro ts
  induction ts with
  | nil => intro fs; rfl
  | cons t rest ih =>
    intro fs
    cases hr : remove_path_any fs t.target_path with
    | error e =>
      rw [removeTargetsLoop, hr]
      simp only [List.map_cons, List.cons.injEq, true_and]
      exact ih fs
    | ok fs1 =>
      rw [removeTargetsLoop, hr]
      simp only [List.map_cons, List.cons.injEq, true_and]
      exact ih fs1

/-- Claim C4: delete_managed_skill proceeds in order — the trace of a run
is the removal attempts of every SyncTarget physical path, followed
(possibly) by the central-directory removal, followed (possibly) by the
database-row deletion, with no other shapes; and the skill row is deleted
only in runs whose final filesystem no longer contains the skill's central
directory (never while the central directory still exists). -/
theorem delete_managed_skill_order (fs : RmFs) (st : Store) (skillId : String) :
    (∃ tail, (delete_managed_skill fs st skillId).trace
        = (list_skill_targets st skillId).map (fun t => DelEv.removeTarget t.target_path) ++ tail
      ∧ (tail = [] ∨ tail = [DelEv.deleteRows]
         ∨ ∃ c, tail = [DelEv.removeCentral c, DelEv.deleteRows]))
    ∧ ∀ (skill : ManagedSkillRecord), get_skill_by_id st skillId = some skill →
        get_skill_by_id (delete_managed_skill fs st skillId).store skillId = none →
        (delete_managed_skill fs st skillId).fs.kind skill.central_path = none := by
  have htr := removeTargetsLoop_trace (list_skill_targets st skillId) fs
  constructor
  · simp only [delete_managed_skill]
    cases hg : get_skill_by_id st skillId with
    | none =>
      refine ⟨[], ?_, Or.inl rfl⟩
      simp [htr]
    | some skill =>
      cases hk : (removeTargetsLoop fs (list_skill_targets st skillId)).1.kind
          skill.central_path with
      | none =>
        refine ⟨[DelEv.deleteRows], ?_, Or.inr (Or.inl rfl)⟩
        simp [hk, htr]
      | some fk =>
        by_cases hrm : (removeTargetsLoop fs (list_skill_targets st skillId)).1.removeDirAllOk
            skill.central_path = true
        · refine ⟨[DelEv.removeCentral skill.central_path, DelEv.deleteRows], ?_,
            Or.inr (Or.inr ⟨skill.central_path, rfl⟩)⟩
          simp [hk, hrm, htr]
        · refine ⟨[], ?_, Or.inl rfl⟩
          simp only [Bool.not_eq_true] at hrm
          simp [hk, hrm, htr]
  · intro skill hskill hdel
    simp only [delete_managed_skill, hskill] at hdel ⊢
    cases hk : (removeTargetsLoop fs (list_skill_targets st skillId)).1.kind
        skill.central_path with
    | none => simp [hk]
    | some fk =>
      by_cases hrm : (removeTargetsLoop fs (list_skill_targets st skillId)).1.removeDirAllOk
          skill.central_path = true
      · simp [hk, hrm, erasePath]
      · simp only [Bool.not_eq_true] at hrm
        rw [hk] at hdel
        simp only [hrm, Bool.false_eq_true, if_false] at hdel
        rw [hskill] at hdel
        simp at hdel

/-- Claim C4 witness: a concrete full deletion run — the trace is exactly
both target-path removal attempts, then the central-directory removal, then
the row deletion; and afterwards the skill row is gone and the central
directory no longer exists. -/
theorem delete_managed_skill_order_witness :
    (delete_managed_skill fsC4 stC4 "s1").trace
      = [DelEv.removeTarget "/home/u/.claude/skills/skill-a",
         DelEv.removeTarget "/home/u/.claude/skills/skill-a",
         DelEv.removeCentral "/central/skill-a", DelEv.deleteRows]
    ∧ get_skill_by_id (delete_managed_skill fsC4 stC4 "s1").store "s1" = none
    ∧ (delete_managed_skill fsC4 stC4 "s1").fs.kind "/central/skill-a" = none := by
  refine ⟨by decide, by decide, ?_⟩
  have h := (delete_managed_skill_order fsC4 stC4 "s1").2 skillC4 (by decide) (by decide)
  exact h

-- ── Remote host status (claim C5) ──

/-- Claim C5 (code bug): a successful passive list-skills call overwrites
the stored host status unconditionally. A host whose status is "idle" (not
"error") ends with status "ok" after list_remote_skills_cmd, although the
claim — and the code's own comment, "SSH succeeded → reset status if it was
previously error" — allows passive listing to change only a prior "error"
to "ok". The listing call itself succeeds and returns the parsed names. -/
theorem list_remote_skills_sets_ok_from_idle :
    (get_remote_host_by_id stC5 "h1").map (fun h => h.status) = some "idle"
    ∧ (list_remote_skills_cmd (.ok sessC5) stC5 "h1").2 = .ok ["skill-a", "skill-b"]
    ∧ (get_remote_host_by_id (list_remote_skills_cmd (.ok sessC5) stC5 "h1").1 "h1").map
        (fun h => h.status) = some "ok" := by
  decide

-- ── Archive extraction (claim C9) ──

theorem extract_writes_foldl (d : String) :
    ∀ (l : List ZipEntry) (acc : List String),
      l.foldl (fun acc e => if zipSkip e then acc else acc ++ [d ++ "/" ++ e.name]) acc
        = acc ++ (l.filter (fun e => !zipSkip e)).map (fun e => d ++ "/" ++ e.name) := by
  intro l
  induction l with
  | nil => intro acc; simp
  | cons e rest ih =>
    intro acc
    cases hs : zipSkip e with
    | true => simp [List.foldl_cons, hs, List.filter_cons, ih]
    | false => simp [List.foldl_cons, hs, List.filter_cons, ih]

theorem extract_dirs_foldl (d : String) :
    ∀ (l : List ZipEntry) (acc : List String),
      l.foldl
          (fun acc e => if zipSkip e then acc else acc ++ (parentPath (d ++ "/" ++ e.name)).toList)
          acc
        = acc ++ (l.filter (fun e => !zipSkip e)).bind
            (fun e => (parentPath (d ++ "/" ++ e.name)).toList) := by
  intro l
  induction l with
  | nil => intro acc; simp
  | cons e rest ih =>
    intro acc
    cases hs : zipSkip e with
    | true => simp [List.foldl_cons, hs, List.filter_cons, ih]
    | false => simp [List.foldl_cons, hs, List.filter_cons, ih]

/-- Claim C9: the extraction loop writes into the target directory exactly
the archive's file entries that are neither directory entries nor named
under __MACOSX nor hidden (name starting with '.'), in archive order, each
under targetDir/slug/name; and the parent directories created are exactly
those of the written files. -/
theorem download_and_extract_skips_hidden (slug : String) (entries : List ZipEntry)
    (targetDir : String) :
    download_and_extract_writes slug entries targetDir
      = (entries.filter (fun e => !zipSkip e)).map
          (fun e => targetDir ++ "/" ++ slug ++ "/" ++ e.name)
    ∧ download_and_extract_dirs slug entries targetDir
      = (entries.filter (fun e => !zipSkip e)).bind
          (fun e => (parentPath (targetDir ++ "/" ++ slug ++ "/" ++ e.name)).toList) := by
  constructor
  · simpa [download_and_extract_writes] using
      extract_writes_foldl (targetDir ++ "/" ++ slug) entries []
  · simpa [download_and_extract_dirs] using
      extract_dirs_foldl (targetDir ++ "/" ++ slug) entries []

-- ── SFTP mkdir -p idempotence (claim C7) ──

theorem sftp_mkdir_p_err (env : SftpEnv) (path : List String) (c : Nat)
    (hm : env.mkdirRes path = .errCode c) :
    sftp_mkdir_p env path =
      if c = 4 ∨ c = 11 then .ok ()
      else if env.stat1Ok path then .ok ()
      else if path.dropLast ≠ [] then
        match sftp_mkdir_p env path.dropLast with
        | .error e => .error e
        | .ok _ =>
          match env.retryRes path with
          | .okR => .ok ()
          | .errCode _ =>
            if env.stat2Ok path then .ok ()
            else .error ("failed to create remote dir: " ++ String.intercalate "/" path)
      else .ok () := by
  rw [sftp_mkdir_p, hm]
  exact rfl

/-- Claim C7: a directory-creation failure of sftp_mkdir_p that indicates
the directory already exists is treated as success — whether signalled by
SFTP error code 4 or 11, by the stat right after the failure succeeding, or
(after parents were created and the retried mkdir failed again, e.g. from a
concurrent race) by the final stat succeeding. -/
theorem sftp_mkdir_p_already_exists (env : SftpEnv) (path : List String) (c : Nat)
    (hm : env.mkdirRes path = .errCode c) :
    ((c = 4 ∨ c = 11) → sftp_mkdir_p env path = .ok ())
    ∧ (env.stat1Ok path = true → sftp_mkdir_p env path = .ok ())
    ∧ ((sftp_mkdir_p env path.dropLast = .ok () ∨ path.dropLast = []) →
        env.stat2Ok path = true → sftp_mkdir_p env path = .ok ()) := by
  refine ⟨?_, ?_, ?_⟩
  · intro hc
    rw [sftp_mkdir_p_err env path c hm, if_pos hc]
  · intro hs
    rw [sftp_mkdir_p_err env path c hm]
    by_cases hc : c = 4 ∨ c = 11
    · rw [if_pos hc]
    · rw [if_neg hc, if_pos hs]
  · intro hpar hstat
    rw [sftp_mkdir_p_err env path c hm]
    by_cases hc : c = 4 ∨ c = 11
    · rw [if_pos hc]
    · rw [if_neg hc]
      by_cases hs1 : env.stat1Ok path = true
      · rw [if_pos hs1]
      · rw [if_neg hs1]
        rcases hpar with hp | hp
        · by_cases hd : path.dropLast ≠ []
          · rw [if_pos hd, hp]
            cases hr : env.retryRes path with
            | okR => rfl
            | errCode c2 => simp [hstat]
          · rw [if_neg hd]
        · rw [if_neg (by simp [hp])]

/-- Claim C7 witness: a concrete mkdir failure with SFTP code 4 on the
staging directory is success. -/
theorem sftp_mkdir_p_already_exists_witness :
    sftp_mkdir_p sftpEnvW ["home", "u", ".skillshub"] = .ok () :=
  (sftp_mkdir_p_already_exists sftpEnvW ["home", "u", ".skillshub"] 4 (by decide)).1
    (Or.inl rfl)

-- ── Remote batch sync lemmas (claims C3, C10) ──

theorem syncLoop_nil (sess : RSess) (adapters : List ToolAdapter) (home : String)
    (tks : List String) : syncLoop sess adapters home tks [] = ([], []) := rfl

theorem syncLoop_cons_missing (sess : RSess) (adapters : List ToolAdapter) (home : String)
    (tks : List String) (name path : String) (rest : List (String × String))
    (h : sess.localEx path = false) :
    syncLoop sess adapters home tks ((name, path) :: rest)
      = syncLoop sess adapters home tks rest := by
  rw [syncLoop, h]
  exact rfl

theorem syncLoop_cons_uploadErr (sess : RSess) (adapters : List ToolAdapter) (home : String)
    (tks : List String) (name path e : String) (rest : List (String × String))
    (h : sess.localEx path = true)
    (hu : sftp_upload_dir_m sess path (home ++ "/.skillshub/" ++ name) = .error e) :
    syncLoop sess adapters home tks ((name, path) :: rest)
      = ((syncLoop sess adapters home tks rest).1,
         (name ++ ": " ++ e) :: (syncLoop sess adapters home tks rest).2) := by
  rw [syncLoop, h]
  simp only [Bool.not_true, Bool.false_eq_true, if_false, hu]

theorem syncLoop_cons_uploadOk (sess : RSess) (adapters : List ToolAdapter) (home : String)
    (tks : List String) (name path : String) (rest : List (String × String))
    (h : sess.localEx path = true)
    (hu : sftp_upload_dir_m sess path (home ++ "/.skillshub/" ++ name) = .ok ()) :
    syncLoop sess adapters home tks ((name, path) :: rest)
      = (name :: (syncLoop sess adapters home tks rest).1,
         skillSymErrs sess adapters home tks name (home ++ "/.skillshub/" ++ name)
           ++ (syncLoop sess adapters home tks rest).2) := by
  rw [syncLoop, h]
  simp only [Bool.not_true, Bool.false_eq_true, if_false, hu]

theorem syncLoop_synced (sess : RSess) (adapters : List ToolAdapter) (home : String)
    (tks : List String) :
    ∀ (skills : List (String × String)),
      (syncLoop sess adapters home tks skills).1
        = (skills.filter (fun np => sess.localEx np.2
            && isOkE (sftp_upload_dir_m sess np.2 (home ++ "/.skillshub/" ++ np.1)))).map
            (fun np => np.1) := by
  intro skills
  induction skills with
  | nil => rfl
  | cons np rest ih =>
    rcases np with ⟨name, path⟩
    cases hloc : sess.localEx path with
    | false =>
      rw [syncLoop_cons_missing sess adapters home tks name path rest hloc]
      simp [List.filter_cons, hloc, ih]
    | true =>
      cases hu : sftp_upload_dir_m sess path (home ++ "/.skillshub/" ++ name) with
      | error e =>
        rw [syncLoop_cons_uploadErr sess adapters home tks name path e rest hloc hu]
        simp [List.filter_cons, hloc, hu, isOkE, ih]
      | ok u =>
        cases u
        rw [syncLoop_cons_uploadOk sess adapters home tks name path rest hloc hu]
        simp [List.filter_cons, hloc, hu, isOkE, ih]

theorem syncLoop_errors (sess : RSess) (adapters : List ToolAdapter) (home : String)
    (tks : List String) :
    ∀ (skills : List (String × String)),
      (syncLoop sess adapters home tks skills).2
        = skills.bind (perSkillErrs sess adapters home tks) := by
  intro skills
  induction skills with
  | nil => rfl
  | cons np rest ih =>
    rcases np with ⟨name, path⟩
    cases hloc : sess.localEx path with
    | false =>
      rw [syncLoop_cons_missing sess adapters home tks name path rest hloc]
      simp [List.cons_bind, perSkillErrs, hloc, ih]
    | true =>
      cases hu : sftp_upload_dir_m sess path (home ++ "/.skillshub/" ++ name) with
      | error e =>
        rw [syncLoop_cons_uploadErr sess adapters home tks name path e rest hloc hu]
        simp [List.cons_bind, perSkillErrs, hloc, hu, ih]
      | ok u =>
        cases u
        rw [syncLoop_cons_uploadOk sess adapters home tks name path rest hloc hu]
        simp [List.cons_bind, perSkillErrs, hloc, hu, ih]

/-- Claim C3: in the remote batch sync loop a skill whose local source
directory is missing is skipped without aborting the batch — the synced
list is exactly the skills whose local directory exists and whose upload
succeeded, in order; the whole call returns that subset whenever it is
non-empty or no error occurred, and fails only when errors occurred and no
skill succeeded. -/
theorem sync_all_partial_failure_contract (sess : RSess) (adapters : List ToolAdapter)
    (tool_keys : List String) (skills : List (String × String)) (rawHome mkOut : String)
    (hHome : sess.execOut "echo $HOME" = .ok rawHome)
    (hMk : sess.execOut ("mkdir -p '" ++ trimString rawHome ++ "/.skillshub'") = .ok mkOut) :
    (syncLoop sess adapters (trimString rawHome) tool_keys skills).1
      = (skills.filter (fun np => sess.localEx np.2
          && isOkE (sftp_upload_dir_m sess np.2
              (trimString rawHome ++ "/.skillshub/" ++ np.1)))).map (fun np => np.1)
    ∧ (((syncLoop sess adapters (trimString rawHome) tool_keys skills).2 = []
        ∨ (syncLoop sess adapters (trimString rawHome) tool_keys skills).1 ≠ []) →
        sync_all_skills_to_remote sess adapters skills tool_keys
          = .ok (syncLoop sess adapters (trimString rawHome) tool_keys skills).1)
    ∧ ((syncLoop sess adapters (trimString rawHome) tool_keys skills).2 ≠ []
        ∧ (syncLoop sess adapters (trimString rawHome) tool_keys skills).1 = [] →
        sync_all_skills_to_remote sess adapters skills tool_keys
          = .error ("all skills failed to sync:\n" ++ String.intercalate "\n"
              (syncLoop sess adapters (trimString rawHome) tool_keys skills).2)) := by
  refine ⟨syncLoop_synced sess adapters (trimString rawHome) tool_keys skills, ?_, ?_⟩
  · intro hok
    rw [sync_all_skills_to_remote, hHome]
    simp only [hMk]
    have hcond : (!(syncLoop sess adapters (trimString rawHome) tool_keys skills).2.isEmpty
        && (syncLoop sess adapters (trimString rawHome) tool_keys skills).1.isEmpty) = false := by
      rcases hok with h2 | h1
      · simp [h2]
      · simp [List.isEmpty_iff, h1]
    simp [hcond]
  · intro hfail
    rw [sync_all_skills_to_remote, hHome]
    simp only [hMk]
    have hcond : (!(syncLoop sess adapters (trimString rawHome) tool_keys skills).2.isEmpty
        && (syncLoop sess adapters (trimString rawHome) tool_keys skills).1.isEmpty) = true := by
      simp [List.isEmpty_iff, hfail.1, hfail.2]
    simp [hcond]

/-- Claim C3 witness: the spec's three-skill example — skill 2's local
directory is missing, the batch neither aborts nor fails, and the returned
synced list is exactly s1 and s3. -/
theorem sync_all_partial_failure_contract_witness :
    sync_all_skills_to_remote sessC3 [adapterA] skillsC3 ["claude-code"] = .ok ["s1", "s3"] := by
  have h := sync_all_partial_failure_contract sessC3 [adapterA] ["claude-code"] skillsC3
    "/home/u\n" "/home/u\n" rfl rfl
  have hs : (syncLoop sessC3 [adapterA] (trimString "/home/u\n") ["claude-code"] skillsC3).1
      = ["s1", "s3"] := by
    rw [h.1]
    decide
  have h2 := h.2.1 (Or.inr (by rw [hs]; simp))
  rw [hs] at h2
  exact h2

/-- Claim C10: a skill enters the returned synced list exactly when its
local directory exists and its SFTP upload succeeded — independently of the
requested tool keys and of any symlink outcome; a failing symlink for a
requested, known tool is recorded in the error list while the skill stays
synced; and tool keys with no matching adapter contribute nothing. -/
theorem sync_all_synced_iff_upload (sess : RSess) (adapters : List ToolAdapter)
    (home : String) (tool_keys : List String) (skills : List (String × String)) :
    (syncLoop sess adapters home tool_keys skills).1
      = (skills.filter (fun np => sess.localEx np.2
          && isOkE (sftp_upload_dir_m sess np.2 (home ++ "/.skillshub/" ++ np.1)))).map
          (fun np => np.1)
    ∧ (syncLoop sess adapters home tool_keys skills).2
      = skills.bind (perSkillErrs sess adapters home tool_keys)
    ∧ (∀ (name absCentral tk : String) (a : ToolAdapter) (e : String), tk ∈ tool_keys →
        adapters.find? (fun a' => a'.key == tk) = some a →
        create_remote_symlink_m sess absCentral
          (home ++ "/" ++ a.relative_skills_dir ++ "/" ++ name) = .error e →
        (name ++ " -> " ++ tk ++ ": " ++ e)
          ∈ skillSymErrs sess adapters home tool_keys name absCentral)
    ∧ (∀ (name absCentral : String),
        (∀ tk ∈ tool_keys, adapters.find? (fun a' => a'.key == tk) = none) →
        skillSymErrs sess adapters home tool_keys name absCentral = []) := by
  refine ⟨syncLoop_synced sess adapters home tool_keys skills,
    syncLoop_errors sess adapters home tool_keys skills, ?_, ?_⟩
  · intro name absCentral tk a e htk hfind herr
    rw [skillSymErrs]
    apply List.mem_filterMap.mpr
    refine ⟨tk, htk, ?_⟩
    rw [hfind]
    simp only [herr]
  · intro name absCentral h
    rw [skillSymErrs]
    apply List.filterMap_eq_nil.mpr
    intro tk htk
    rw [h tk htk]

/-- Claim C10 witness: one skill whose upload succeeds but whose symlink
command fails — the skill is still in the synced list and the formatted
symlink failure is recorded as an error. -/
theorem sync_all_synced_iff_upload_witness :
    (syncLoop sessC10 [adapterA] "/home/u" ["claude-code"] [("s1", "/central/skill-1")]).1
      = ["s1"]
    ∧ ("s1 -> claude-code: ln failed")
        ∈ skillSymErrs sessC10 [adapterA] "/home/u" ["claude-code"] "s1"
            "/home/u/.skillshub/s1" := by
  have h := sync_all_synced_iff_upload sessC10 [adapterA] "/home/u" ["claude-code"]
    [("s1", "/central/skill-1")]
  constructor
  · rw [h.1]; decide
  · exact h.2.2.1 "s1" "/home/u/.skillshub/s1" "claude-code" adapterA "ln failed"
      (by decide) (by decide) (by decide)

-- ── Remote filesystem lemmas (claim C6) ──

theorem lookupFs_insert_self (fs : RemoteFs) (p : List String) (e : REntry) :
    lookupFs (insertFs fs p e) p = some e := by
  simp only [lookupFs, insertFs]
  rw [List.find?_cons_of_pos _ (by simp)]
  rfl

theorem lookupFs_insert_ne (fs : RemoteFs) (p q : List String) (e : REntry) (h : q ≠ p) :
    lookupFs (insertFs fs p e) q = lookupFs fs q := by
  simp only [lookupFs, insertFs]
  rw [List.find?_cons_of_neg _ (by simpa using fun hh => h hh.symm)]

theorem lookupFs_update_self (fs : RemoteFs) (p : List String) (e v : REntry)
    (h : lookupFs fs p = some v) :
    lookupFs (updateFs fs p e) p = some e := by
  induction fs with
  | nil => simp [lookupFs] at h
  | cons kv rest ih =>
    cases hbeq : (kv.1 == p) with
    | true =>
      simp only [lookupFs, updateFs, List.map_cons, hbeq, if_true]
      rw [List.find?_cons_of_pos _ (by simpa using hbeq)]
      rfl
    | false =>
      simp only [lookupFs, updateFs, List.map_cons, hbeq, Bool.false_eq_true, if_false] at h ⊢
      rw [List.find?_cons_of_neg _ (by simp [hbeq])] at h
      rw [List.find?_cons_of_neg _ (by simp [hbeq])]
      exact ih h

theorem lookupFs_update_ne (fs : RemoteFs) (p q : List String) (e : REntry) (h : q ≠ p) :
    lookupFs (updateFs fs p e) q = lookupFs fs q := by
  induction fs with
  | nil => rfl
  | cons kv rest ih =>
    cases hbeq : (kv.1 == p) with
    | true =>
      have hkp : kv.1 = p := by simpa using hbeq
      have hkq : ¬(kv.1 = q) := by rw [hkp]; exact fun hh => h hh.symm
      simp only [lookupFs, updateFs, List.map_cons, hbeq, if_true]
      rw [List.find?_cons_of_neg _ (by simpa using hkq)]
      rw [List.find?_cons_of_neg _ (by simpa using hkq)]
      exact ih
    | false =>
      simp only [lookupFs, updateFs, List.map_cons, hbeq, Bool.false_eq_true, if_false]
      by_cases hkq : kv.1 = q
      · rw [List.find?_cons_of_pos _ (by simpa using hkq)]
        rw [List.find?_cons_of_pos _ (by simpa using hkq)]
      · rw [List.find?_cons_of_neg _ (by simpa using hkq)]
        rw [List.find?_cons_of_neg _ (by simpa using hkq)]
        exact ih

theorem keys_update (fs : RemoteFs) (p : List String) (e : REntry) :
    (updateFs fs p e).map Prod.fst = fs.map Prod.fst := by
  simp only [updateFs, List.map_map]
  apply List.map_congr_left
  intro kv _
  by_cases hk : kv.1 = p
  · simp [hk]
  · simp [hk]

theorem lookupFs_eq_none_iff (fs : RemoteFs) (p : List String) :
    lookupFs fs p = none ↔ p ∉ fs.map Prod.fst := by
  constructor
  · intro h hmem
    rcases List.mem_map.mp hmem with ⟨kv, hkv, hfst⟩
    rw [lookupFs, Option.map_eq_none', List.find?_eq_none] at h
    have h2 := h kv hkv
    simp only [beq_iff_eq] at h2
    exact h2 hfst
  · intro h
    rw [lookupFs, Option.map_eq_none', List.find?_eq_none]
    intro kv hkv hpred
    exact h (List.mem_map.mpr ⟨kv, hkv, by simpa using hpred⟩)

theorem map_eq_self_of_mem {α : Type} (f : α → α) (l : List α) (h : ∀ x ∈ l, f x = x) :
    l.map f = l := by
  induction l with
  | nil => rfl
  | cons a rest ih =>
    simp only [List.map_cons, h a (List.mem_cons_self a rest),
      ih (fun x hx => h x (List.mem_cons_of_mem a hx))]

theorem lookup_unique (fs : RemoteFs) (p : List String) (v : REntry)
    (hnd : (fs.map Prod.fst).Nodup) (h : lookupFs fs p = some v) :
    ∀ kv ∈ fs, kv.1 = p → kv.2 = v := by
  induction fs with
  | nil => intro kv hkv; exact absurd hkv (List.not_mem_nil kv)
  | cons kv0 rest ih =>
    intro kv hkv hkvp
    simp only [List.map_cons, List.nodup_cons] at hnd
    cases hbeq : (kv0.1 == p) with
    | true =>
      have hk0 : kv0.1 = p := by simpa using hbeq
      rw [lookupFs, List.find?_cons_of_pos _ (by simpa using hbeq)] at h
      have hv : kv0.2 = v := by simpa using h
      rcases List.mem_cons.mp hkv with rfl | hkv'
      · exact hv
      · exact absurd (hkvp.trans hk0.symm ▸ List.mem_map_of_mem Prod.fst hkv') hnd.1
    | false =>
      have hk0 : ¬(kv0.1 = p) := by simpa using hbeq
      rw [lookupFs, List.find?_cons_of_neg _ (by simpa using hbeq)] at h
      rcases List.mem_cons.mp hkv with rfl | hkv'
      · exact absurd hkvp hk0
      · exact ih hnd.2 h kv hkv' hkvp

theorem update_eq_self (fs : RemoteFs) (p : List String) (e : REntry)
    (hnd : (fs.map Prod.fst).Nodup) (h : lookupFs fs p = some e) :
    updateFs fs p e = fs := by
  apply map_eq_self_of_mem
  intro kv hkv
  cases hbeq : (kv.1 == p) with
  | true =>
    have hv := lookup_unique fs p e hnd h kv hkv (by simpa using hbeq)
    simp only [hbeq, if_true]
    rw [← hv]
  | false =>
    have hk : ¬(kv.1 = p) := by simpa using hbeq
    simp [hk]

theorem filter_count_one (fs : RemoteFs) (p : List String) (v : REntry)
    (hnd : (fs.map Prod.fst).Nodup) (h : lookupFs fs p = some v) :
    (fs.filter (fun kv => kv.1 == p)).length = 1 := by
  induction fs with
  | nil => simp [lookupFs] at h
  | cons kv0 rest ih =>
    simp only [List.map_cons, List.nodup_cons] at hnd
    cases hbeq : (kv0.1 == p) with
    | true =>
      have hk0 : kv0.1 = p := by simpa using hbeq
      have hrest : rest.filter (fun kv => kv.1 == p) = [] := by
        apply List.filter_eq_nil_iff.mpr
        intro kv hkv hc
        have hkp : kv.1 = p := by simpa using hc
        have hmem : kv.1 ∈ rest.map Prod.fst := List.mem_map_of_mem Prod.fst hkv
        rw [hkp, ← hk0] at hmem
        exact hnd.1 hmem
      simp [List.filter_cons, hbeq, hrest]
    | false =>
      rw [lookupFs, List.find?_cons_of_neg _ (by simpa using hbeq)] at h
      simp only [List.filter_cons, hbeq, Bool.false_eq_true, if_false]
      exact ih hnd.2 h

theorem nodup_insert_of_absent (fs : RemoteFs) (p : List String) (e : REntry)
    (h : lookupFs fs p = none) (hnd : (fs.map Prod.fst).Nodup) :
    ((insertFs fs p e).map Prod.fst).Nodup := by
  simp only [insertFs, List.map_cons, List.nodup_cons]
  exact ⟨(lookupFs_eq_none_iff fs p).mp h, hnd⟩


theorem foldlM_mkdir_nil (fs : RemoteFs) : List.foldlM mkdirStep fs [] = .ok fs := rfl

theorem foldlM_mkdir_cons_ok (fs fs1 : RemoteFs) (q : List String) (L : List (List String))
    (h : mkdirStep fs q = .ok fs1) :
    List.foldlM mkdirStep fs (q :: L) = List.foldlM mkdirStep fs1 L := by
  rw [List.foldlM_cons, h]
  exact rfl

theorem foldlM_mkdir_cons_err (fs : RemoteFs) (q : List String) (L : List (List String))
    (e : String) (h : mkdirStep fs q = .error e) :
    List.foldlM mkdirStep fs (q :: L) = .error e := by
  rw [List.foldlM_cons, h]
  exact rfl

theorem mkdirStep_lookup_ne (fs fs1 : RemoteFs) (q k : List String)
    (h : mkdirStep fs q = .ok fs1) (hne : k ≠ q) :
    lookupFs fs1 k = lookupFs fs k := by
  rw [mkdirStep] at h
  cases hl : lookupFs fs q with
  | none =>
    rw [hl] at h
    simp only [Except.ok.injEq] at h
    rw [← h]
    exact lookupFs_insert_ne fs q k .dir hne
  | some e =>
    rw [hl] at h
    cases e with
    | dir => simp only [Except.ok.injEq] at h; rw [← h]
    | file => simp at h
    | symlink d => simp at h

theorem mkdirStep_keeps_dir (fs fs1 : RemoteFs) (q k : List String)
    (h : mkdirStep fs q = .ok fs1) (hk : lookupFs fs k = some .dir) :
    lookupFs fs1 k = some .dir := by
  by_cases hkq : k = q
  · subst hkq
    rw [mkdirStep, hk] at h
    simp only [Except.ok.injEq] at h
    rw [← h]
    exact hk
  · rw [mkdirStep_lookup_ne fs fs1 q k h hkq]
    exact hk

theorem mkdirStep_nodup (fs fs1 : RemoteFs) (q : List String)
    (h : mkdirStep fs q = .ok fs1) (hnd : (fs.map Prod.fst).Nodup) :
    (fs1.map Prod.fst).Nodup := by
  rw [mkdirStep] at h
  cases hl : lookupFs fs q with
  | none =>
    rw [hl] at h
    simp only [Except.ok.injEq] at h
    rw [← h]
    exact nodup_insert_of_absent fs q .dir hl hnd
  | some e =>
    rw [hl] at h
    cases e with
    | dir => simp only [Except.ok.injEq] at h; rw [← h]; exact hnd
    | file => simp at h
    | symlink d => simp at h

theorem foldlM_mkdir_lookup_ne :
    ∀ (L : List (List String)) (fs fs' : RemoteFs) (k : List String),
      (∀ q ∈ L, q ≠ k) → List.foldlM mkdirStep fs L = .ok fs' →
      lookupFs fs' k = lookupFs fs k := by
  intro L
  induction L with
  | nil =>
    intro fs fs' k _ h
    rw [foldlM_mkdir_nil] at h
    simp only [Except.ok.injEq] at h
    rw [h]
  | cons q L ih =>
    intro fs fs' k hne h
    cases hs : mkdirStep fs q with
    | error e => rw [foldlM_mkdir_cons_err fs q L e hs] at h; simp at h
    | ok fs1 =>
      rw [foldlM_mkdir_cons_ok fs fs1 q L hs] at h
      rw [ih fs1 fs' k (fun q' hq' => hne q' (List.mem_cons_of_mem q hq')) h]
      exact mkdirStep_lookup_ne fs fs1 q k hs
        (fun hh => hne q (List.mem_cons_self q L) hh.symm)

theorem foldlM_mkdir_keeps_dir :
    ∀ (L : List (List String)) (fs fs' : RemoteFs) (k : List String),
      List.foldlM mkdirStep fs L = .ok fs' → lookupFs fs k = some .dir →
      lookupFs fs' k = some .dir := by
  intro L
  induction L with
  | nil =>
    intro fs fs' k h hk
    rw [foldlM_mkdir_nil] at h
    simp only [Except.ok.injEq] at h
    rw [← h]
    exact hk
  | cons q L ih =>
    intro fs fs' k h hk
    cases hs : mkdirStep fs q with
    | error e => rw [foldlM_mkdir_cons_err fs q L e hs] at h; simp at h
    | ok fs1 =>
      rw [foldlM_mkdir_cons_ok fs fs1 q L hs] at h
      exact ih fs1 fs' k h (mkdirStep_keeps_dir fs fs1 q k hs hk)

theorem foldlM_mkdir_post :
    ∀ (L : List (List String)) (fs fs' : RemoteFs),
      List.foldlM mkdirStep fs L = .ok fs' →
      ∀ q ∈ L, lookupFs fs' q = some .dir := by
  intro L
  induction L with
  | nil => intro fs fs' _ q hq; exact absurd hq (List.not_mem_nil q)
  | cons q0 L ih =>
    intro fs fs' h q hq
    cases hs : mkdirStep fs q0 with
    | error e => rw [foldlM_mkdir_cons_err fs q0 L e hs] at h; simp at h
    | ok fs1 =>
      rw [foldlM_mkdir_cons_ok fs fs1 q0 L hs] at h
      rcases List.mem_cons.mp hq with rfl | hq'
      · have h1 : lookupFs fs1 q = some .dir := by
          rw [mkdirStep] at hs
          cases hl : lookupFs fs q with
          | none =>
            rw [hl] at hs
            simp only [Except.ok.injEq] at hs
            rw [← hs]
            exact lookupFs_insert_self fs q .dir
          | some e =>
            rw [hl] at hs
            cases e with
            | dir => simp only [Except.ok.injEq] at hs; rw [← hs]; exact hl
            | file => simp at hs
            | symlink d => simp at hs
        exact foldlM_mkdir_keeps_dir L fs1 fs' q h h1
      · exact ih fs1 fs' h q hq'

theorem foldlM_mkdir_nodup :
    ∀ (L : List (List String)) (fs fs' : RemoteFs),
      List.foldlM mkdirStep fs L = .ok fs' → (fs.map Prod.fst).Nodup →
      (fs'.map Prod.fst).Nodup := by
  intro L
  induction L with
  | nil =>
    intro fs fs' h hnd
    rw [foldlM_mkdir_nil] at h
    simp only [Except.ok.injEq] at h
    rw [← h]
    exact hnd
  | cons q L ih =>
    intro fs fs' h hnd
    cases hs : mkdirStep fs q with
    | error e => rw [foldlM_mkdir_cons_err fs q L e hs] at h; simp at h
    | ok fs1 =>
      rw [foldlM_mkdir_cons_ok fs fs1 q L hs] at h
      exact ih fs1 fs' h (mkdirStep_nodup fs fs1 q hs hnd)

theorem foldlM_mkdir_noop :
    ∀ (L : List (List String)) (fs : RemoteFs),
      (∀ q ∈ L, lookupFs fs q = some .dir) →
      List.foldlM mkdirStep fs L = .ok fs := by
  intro L
  induction L with
  | nil => intro fs _; rfl
  | cons q L ih =>
    intro fs h
    have hs : mkdirStep fs q = .ok fs := by
      rw [mkdirStep, h q (List.mem_cons_self q L)]
    rw [foldlM_mkdir_cons_ok fs fs q L hs]
    exact ih fs (fun q' hq' => h q' (List.mem_cons_of_mem q hq'))

theorem mem_prefixList_length (p q : List String) (hq : q ∈ prefixList p) :
    1 ≤ q.length ∧ q.length ≤ p.length := by
  rw [prefixList] at hq
  rcases List.mem_map.mp hq with ⟨i, hi, rfl⟩
  rw [List.mem_range] at hi
  rw [List.length_take]
  omega

theorem mem_prefixList_dropLast_ne (target q : List String)
    (hq : q ∈ prefixList target.dropLast) : q ≠ target := by
  have h1 := mem_prefixList_length target.dropLast q hq
  rw [List.length_dropLast] at h1
  intro hc
  subst hc
  omega

theorem create_symlink_second_run (fs1 : RemoteFs) (source target : List String)
    (hnd1 : (fs1.map Prod.fst).Nodup)
    (hlook1 : lookupFs fs1 target = some (.symlink source))
    (hdirs1 : ∀ q ∈ prefixList target.dropLast, lookupFs fs1 q = some .dir) :
    create_remote_symlink_fs fs1 source target = .ok fs1 := by
  rw [create_remote_symlink_fs, mkdirP]
  rw [foldlM_mkdir_noop (prefixList target.dropLast) fs1 hdirs1]
  show lnSfn fs1 source target = .ok fs1
  rw [lnSfn, hlook1]
  show Except.ok (updateFs fs1 target (.symlink source)) = .ok fs1
  rw [update_eq_self fs1 target (.symlink source) hnd1 hlook1]

/-- Claim C6: remote symlink creation is idempotent. Starting from any
remote filesystem with duplicate-free paths whose target entry is not a
real directory, a successful create_remote_symlink run leaves exactly one
entry at the destination — a symlink pointing at the staged source — and
running it a second time with the same arguments succeeds without error
and changes nothing. -/
theorem create_remote_symlink_idempotent (fs fs1 : RemoteFs) (source target : List String)
    (hnd : (fs.map Prod.fst).Nodup)
    (hdir : lookupFs fs target ≠ some .dir)
    (h1 : create_remote_symlink_fs fs source target = .ok fs1) :
    lookupFs fs1 target = some (.symlink source)
    ∧ create_remote_symlink_fs fs1 source target = .ok fs1
    ∧ (fs1.filter (fun kv => kv.1 == target)).length = 1 := by
  rw [create_remote_symlink_fs] at h1
  cases hm : mkdirP fs target.dropLast with
  | error e => rw [hm] at h1; simp at h1
  | ok fsm =>
    rw [hm] at h1
    have h1' : lnSfn fsm source target = .ok fs1 := h1
    rw [mkdirP] at hm
    have hne : ∀ q ∈ prefixList target.dropLast, q ≠ target :=
      fun q hq => mem_prefixList_dropLast_ne target q hq
    have hlt : lookupFs fsm target = lookupFs fs target :=
      foldlM_mkdir_lookup_ne (prefixList target.dropLast) fs fsm target hne hm
    have hndm : (fsm.map Prod.fst).Nodup :=
      foldlM_mkdir_nodup (prefixList target.dropLast) fs fsm hm hnd
    have hdirs : ∀ q ∈ prefixList target.dropLast, lookupFs fsm q = some .dir :=
      foldlM_mkdir_post (prefixList target.dropLast) fs fsm hm
    cases hLt : lookupFs fsm target with
    | none =>
      rw [lnSfn, hLt] at h1'
      have hfs1 : insertFs fsm target (.symlink source) = fs1 := by
        simpa using h1'
      subst hfs1
      have hlook1 : lookupFs (insertFs fsm target (.symlink source)) target
          = some (.symlink source) := lookupFs_insert_self fsm target _
      have hnd1 : ((insertFs fsm target (.symlink source)).map Prod.fst).Nodup :=
        nodup_insert_of_absent fsm target _ hLt hndm
      have hdirs1 : ∀ q ∈ prefixList target.dropLast,
          lookupFs (insertFs fsm target (.symlink source)) q = some .dir := by
        intro q hq
        rw [lookupFs_insert_ne fsm target q _ (hne q hq)]
        exact hdirs q hq
      exact ⟨hlook1, create_symlink_second_run _ source target hnd1 hlook1 hdirs1,
        filter_count_one _ target (.symlink source) hnd1 hlook1⟩
    | some e0 =>
      cases e0 with
      | dir =>
        rw [hlt] at hLt
        exact absurd hLt hdir
      | file =>
        rw [lnSfn, hLt] at h1'
        have hfs1 : updateFs fsm target (.symlink source) = fs1 := by
          simpa using h1'
        subst hfs1
        have hlook1 : lookupFs (updateFs fsm target (.symlink source)) target
            = some (.symlink source) :=
          lookupFs_update_self fsm target _ _ hLt
        have hnd1 : ((updateFs fsm target (.symlink source)).map Prod.fst).Nodup := by
          rw [keys_update]
          exact hndm
        have hdirs1 : ∀ q ∈ prefixList target.dropLast,
            lookupFs (updateFs fsm target (.symlink source)) q = some .dir := by
          intro q hq
          rw [lookupFs_update_ne fsm target q _ (hne q hq)]
          exact hdirs q hq
        exact ⟨hlook1, create_symlink_second_run _ source target hnd1 hlook1 hdirs1,
          filter_count_one _ target (.symlink source) hnd1 hlook1⟩
      | symlink d =>
        rw [lnSfn, hLt] at h1'
        have hfs1 : updateFs fsm target (.symlink source) = fs1 := by
          simpa using h1'
        subst hfs1
        have hlook1 : lookupFs (updateFs fsm target (.symlink source)) target
            = some (.symlink source) :=
          lookupFs_update_self fsm target _ _ hLt
        have hnd1 : ((updateFs fsm target (.symlink source)).map Prod.fst).Nodup := by
          rw [keys_update]
          exact hndm
        have hdirs1 : ∀ q ∈ prefixList target.dropLast,
            lookupFs (updateFs fsm target (.symlink source)) q = some .dir := by
          intro q hq
          rw [lookupFs_update_ne fsm target q _ (hne q hq)]
          exact hdirs q hq
        exact ⟨hlook1, create_symlink_second_run _ source target hnd1 hlook1 hdirs1,
          filter_count_one _ target (.symlink source) hnd1 hlook1⟩

/-- Claim C6 witness: from an empty remote filesystem, linking the staged
skill to the tool directory twice leaves exactly one symlink at the
destination, pointing at the staged copy, and the second run succeeds
without changing anything. -/
theorem create_remote_symlink_idempotent_witness :
    lookupFs c6fs1 c6tgt = some (.symlink c6src)
    ∧ create_remote_symlink_fs c6fs1 c6src c6tgt = .ok c6fs1
    ∧ (c6fs1.filter (fun kv => kv.1 == c6tgt)).length = 1 :=
  create_remote_symlink_idempotent [] c6fs1 c6src c6tgt (by decide) (by decide) (by decide)

end SkillsHub
